import Mathlib

/-! ColorGenerator: colour parsing, resolution validation, pixel fill, format lookup.

A shallow embedding of the C++ sources `Color.cpp`, `Resolution.cpp`,
`ImageWriter.cpp`, `formats/STBImageWriter.cpp` and `main.cpp`, followed by
theorems about the embedded functions.

Conventions of the embedding:

* a `std::string` is the list of its `char`s, each `char` given by its
  unsigned byte value (`'#'` is `35`, `'0'` is `48`, `'A'` is `65`, ...);
* the `<cctype>` functions are those of the "C" locale (the program never
  calls `setlocale`);
* a function that can throw returns `Except Exn _`;
* `uint8_t`, `uint32_t`, `size_t` values are natural numbers, reduced
  modulo `2^8`, `2^32`, `2^64` where the C++ code converts or computes in
  that type; `unsigned long` is 64 bits wide, like `size_t` (LP64);
* what `main` writes to `std::cout` and `std::cerr` is not part of the model.
-/

namespace ColorGenerator

/-! ## Strings and exceptions -/

/-- The model of `std::string`: the byte values of the characters. -/
abbrev CppString := List Nat

/-- The byte string of an ASCII literal. -/
def str (s : String) : CppString := s.toList.map Char.toNat

/-- The standard exceptions the program throws, with their `what()` text. -/
inductive Exn where
  | invalid_argument (what : CppString)
  | out_of_range (what : CppString)
  | runtime_error (what : CppString)
deriving DecidableEq, Repr

instance {ε α : Type} [DecidableEq ε] [DecidableEq α] : DecidableEq (Except ε α)
  | .ok a, .ok b => if h : a = b then isTrue (by rw [h]) else isFalse (fun e => h (by cases e; rfl))
  | .error a, .error b =>
    if h : a = b then isTrue (by rw [h]) else isFalse (fun e => h (by cases e; rfl))
  | .ok _, .error _ => isFalse (fun e => by cases e)
  | .error _, .ok _ => isFalse (fun e => by cases e)

/-- The exception is a `std::invalid_argument`. -/
def Exn.isInvalidArgument : Exn → Bool
  | .invalid_argument _ => true
  | _ => false

/-- The computation threw. -/
def failed {α : Type} : Except Exn α → Bool
  | .error _ => true
  | .ok _ => false

/-- The computation threw a `std::invalid_argument`. -/
def failedInvalidArgument {α : Type} : Except Exn α → Bool
  | .error e => e.isInvalidArgument
  | .ok _ => false

/-! ## `<cctype>` in the "C" locale -/

/-- `::toupper`: `'a'..'z'` go to `'A'..'Z'`, every other value is unchanged. -/
def toupper (c : Nat) : Nat := if 97 ≤ c ∧ c ≤ 122 then c - 32 else c

/-- `::tolower`: `'A'..'Z'` go to `'a'..'z'`, every other value is unchanged. -/
def tolower (c : Nat) : Nat := if 65 ≤ c ∧ c ≤ 90 then c + 32 else c

/-- `std::isxdigit`: `0-9`, `A-F`, `a-f`. -/
def isxdigit (c : Nat) : Bool :=
  (48 ≤ c && c ≤ 57) || (65 ≤ c && c ≤ 70) || (97 ≤ c && c ≤ 102)

/-- `std::isspace`: space, `\t`, `\n`, `\v`, `\f`, `\r`. -/
def isspace (c : Nat) : Bool := c == 32 || (9 ≤ c && c ≤ 13)

/-! ## `std::string` helpers -/

/-- `s.substr(pos, n)`. -/
def substr (s : CppString) (pos n : Nat) : CppString := (s.drop pos).take n

/-- `s[i]` for an index inside the string. -/
def charAt (s : CppString) (i : Nat) : Nat := s.getD i 0

/-! ## `std::stoi` -/

/-- The value of a character as a digit in the given base (`strtol` accepts
`0-9` and letters of either case), or `none` when it is not such a digit. -/
def digitValue (base c : Nat) : Option Nat :=
  let v : Option Nat :=
    if 48 ≤ c ∧ c ≤ 57 then some (c - 48)
    else if 65 ≤ c ∧ c ≤ 90 then some (c - 55)
    else if 97 ≤ c ∧ c ≤ 122 then some (c - 87)
    else none
  match v with
  | some d => if d < base then some d else none
  | none => none

/-- The longest run of digits at the front of the string, accumulated most
significant digit first; `none` while no digit has been read. -/
def readDigits (base : Nat) : CppString → Option Nat → Option Nat
  | [], acc => acc
  | c :: cs, acc =>
    match digitValue base c with
    | some d => readDigits base cs (some (acc.getD 0 * base + d))
    | none => acc

/-- The optional sign of a number: whether it is `-`, and the rest. -/
def readSign : CppString → Bool × CppString
  | 45 :: t => (true, t)
  | 43 :: t => (false, t)
  | s => (false, s)

/-- The optional `0x`/`0X` prefix of a base-16 number, taken only when a hex
digit follows it. -/
def skipHexPrefix (base : Nat) : CppString → CppString
  | 48 :: x :: d :: t =>
    if base = 16 ∧ (x = 120 ∨ x = 88) ∧ (digitValue 16 d).isSome then d :: t
    else 48 :: x :: d :: t
  | s => s

/-- `std::stoi(s, nullptr, base)`: leading white space, an optional sign, for
base 16 an optional `0x`, then the longest run of digits. Throws
`std::invalid_argument` when there is no digit and `std::out_of_range` when
the value does not fit an `int`. -/
def stoi (s : CppString) (base : Nat) : Except Exn Int :=
  let (neg, rest) := readSign (s.dropWhile isspace)
  match readDigits base (skipHexPrefix base rest) none with
  | none => .error (.invalid_argument (str "stoi"))
  | some n =>
    let v : Int := if neg then -(n : Int) else (n : Int)
    if v < -2147483648 ∨ 2147483647 < v then .error (.out_of_range (str "stoi"))
    else .ok v

/-- Conversion of an `int` to `uint8_t`. -/
def toUInt8 (v : Int) : Nat := (v % 256).toNat

/-- The largest `unsigned long`. -/
def ULONG_MAX : Nat := 18446744073709551615

/-- `std::stoul(s, nullptr, base)`: leading white space, an optional sign, for
base 16 an optional `0x`, then the longest run of digits. Throws
`std::invalid_argument` when there is no digit and `std::out_of_range` when
the digits exceed `ULONG_MAX`; a value with a minus sign is negated in
`unsigned long`. -/
def stoul (s : CppString) (base : Nat) : Except Exn Nat :=
  let (neg, rest) := readSign (s.dropWhile isspace)
  match readDigits base (skipHexPrefix base rest) none with
  | none => .error (.invalid_argument (str "stoul"))
  | some n =>
    if ULONG_MAX < n then .error (.out_of_range (str "stoul"))
    else .ok (if neg then (ULONG_MAX + 1 - n) % (ULONG_MAX + 1) else n)

/-- `s.find(c)`: the index of the first `c`, or `none` for `npos`. -/
def string_find : CppString → Nat → Option Nat
  | [], _ => none
  | c :: t, ch => if c = ch then some 0 else (string_find t ch).map (· + 1)

/-- `s.find_last_of(c)`: the index of the last `c`, or `none` for `npos`. -/
def find_last_of : CppString → Nat → Option Nat
  | [], _ => none
  | c :: t, ch =>
    match find_last_of t ch with
    | some i => some (i + 1)
    | none => if c = ch then some 0 else none

/-- `s.substr(pos)` for `pos <= s.size()`. -/
def substrFrom (s : CppString) (pos : Nat) : CppString := s.drop pos

/-! ## Decimal output of unsigned integers -/

/-- The digits of `n` in base 10 in front of `acc`, most significant first. -/
def decDigitsAux : Nat → Nat → CppString → CppString
  | 0, _, acc => acc
  | fuel + 1, n, acc =>
    if n / 10 = 0 then (48 + n % 10) :: acc
    else decDigitsAux fuel (n / 10) ((48 + n % 10) :: acc)

/-- What `oss << n` prints for an unsigned `n`: the base-10 digits without
leading zeros (`"0"` for zero). -/
def formatDec (n : Nat) : CppString := decDigitsAux (n + 1) n []

/-- The number a string of decimal digits denotes. -/
def decimalValue (s : CppString) : Nat := s.foldl (fun acc c => 10 * acc + (c - 48)) 0

/-- The character is one of `'0'..'9'`. -/
def isDecimalDigit (c : Nat) : Bool := 48 ≤ c && c ≤ 57

/-- The string `s` is the decimal representation of `n`: a non-empty string of
digits `'0'..'9'` that denotes `n`, with no sign and no leading zero (zero
itself is `"0"`). -/
def IsDecimalRepr (s : CppString) (n : Nat) : Prop :=
  s ≠ [] ∧ (∀ c ∈ s, isDecimalDigit c = true) ∧ decimalValue s = n
    ∧ (s.head? = some 48 → s = [48])

instance (s : CppString) (n : Nat) : Decidable (IsDecimalRepr s n) := by
  unfold IsDecimalRepr; infer_instance

/-- The character is one of `'0'..'9'`, `'A'..'F'`. -/
def isUpperHexDigit (c : Nat) : Bool := (48 ≤ c && c ≤ 57) || (65 ≤ c && c ≤ 70)

/-- The numeric value of a hex digit character: `'0'..'9'` are 0..9,
`'A'..'F'` and `'a'..'f'` are 10..15. -/
def hexValue (c : Nat) : Nat :=
  if c ≤ 57 then c - 48 else if c ≤ 70 then c - 55 else c - 87

/-- The string left after removing one optional leading `'#'`. -/
def stripHash : CppString → CppString
  | 35 :: t => t
  | s => s

/-! ## `Color` (Color.hpp, Color.cpp) -/

/-- The four `uint8_t` members of `Color`. -/
structure Color where
  red : Nat
  green : Nat
  blue : Nat
  alpha : Nat
deriving DecidableEq, Repr

namespace Color

/-- Every channel is a `uint8_t` value. -/
def WF (c : Color) : Prop := c.red < 256 ∧ c.green < 256 ∧ c.blue < 256 ∧ c.alpha < 256

instance (c : Color) : Decidable c.WF := by unfold WF; infer_instance

/-- `Color::Color(uint8_t r, uint8_t g, uint8_t b)`. -/
def ofRGB (r g b : Nat) : Color := ⟨r, g, b, 255⟩

/-- `Color::isOpaque`. -/
def isOpaque (c : Color) : Bool := c.alpha == 255

/-- `Color::isTransparent`. -/
def isTransparent (c : Color) : Bool := c.alpha == 0

/-- `Color::parseHex`, returning the members it assigns. The `Color(hex)`
constructor is this function: when it throws, no object exists. -/
def parseHex (hex : CppString) : Except Exn Color :=
  -- Remove '#' if present
  let cleaned := if !hex.isEmpty && charAt hex 0 == 35 then hex.drop 1 else hex
  -- Convert to uppercase
  let cleaned := cleaned.map toupper
  -- Validate hex characters
  if !cleaned.all isxdigit then
    .error (.invalid_argument (str "Invalid hex color format: contains non-hex characters"))
  else if cleaned.length = 3 then do
    let r ← stoi (List.replicate 2 (charAt cleaned 0)) 16
    let g ← stoi (List.replicate 2 (charAt cleaned 1)) 16
    let b ← stoi (List.replicate 2 (charAt cleaned 2)) 16
    pure ⟨toUInt8 r, toUInt8 g, toUInt8 b, 255⟩
  else if cleaned.length = 6 then do
    let r ← stoi (substr cleaned 0 2) 16
    let g ← stoi (substr cleaned 2 2) 16
    let b ← stoi (substr cleaned 4 2) 16
    pure ⟨toUInt8 r, toUInt8 g, toUInt8 b, 255⟩
  else if cleaned.length = 8 then do
    let r ← stoi (substr cleaned 0 2) 16
    let g ← stoi (substr cleaned 2 2) 16
    let b ← stoi (substr cleaned 4 2) 16
    let a ← stoi (substr cleaned 6 2) 16
    pure ⟨toUInt8 r, toUInt8 g, toUInt8 b, toUInt8 a⟩
  else
    .error (.invalid_argument
      (str "Invalid hex color format: must be 3, 6, or 8 characters (optionally with #)"))

/-- `Color::Color(const std::string& hex)`. -/
def ofHex (hex : CppString) : Except Exn Color := parseHex hex

end Color

/-! ### `Color::toHex` -/

/-- The character of a hex digit under `std::uppercase`. -/
def hexDigitChar (d : Nat) : Nat := if d < 10 then 48 + d else 55 + d

/-- The digits of `n` in base 16 in front of `acc`, most significant first. -/
def hexDigitsAux : Nat → Nat → CppString → CppString
  | 0, _, acc => acc
  | fuel + 1, n, acc =>
    if n / 16 = 0 then hexDigitChar (n % 16) :: acc
    else hexDigitsAux fuel (n / 16) (hexDigitChar (n % 16) :: acc)

/-- What `oss << std::uppercase << std::hex << n` prints for `n ≥ 0`, before
padding: the base-16 digits without leading zeros (`"0"` for zero). -/
def formatHex (n : Nat) : CppString := hexDigitsAux (n + 1) n []

/-- The effect of `std::setw(width)` with `std::setfill(fill)` on the next
output: it is padded on the left up to `width` characters. -/
def setw (width fill : Nat) (s : CppString) : CppString :=
  List.replicate (width - s.length) fill ++ s

/-- `Color::toHex`. -/
def Color.toHex (c : Color) (includeAlpha : Bool) : CppString :=
  let oss := str "#" ++ setw 2 48 (formatHex c.red) ++ setw 2 48 (formatHex c.green)
    ++ setw 2 48 (formatHex c.blue)
  if includeAlpha then oss ++ setw 2 48 (formatHex c.alpha) else oss

/-! ## `Resolution` (Resolution.hpp, Resolution.cpp) -/

/-- The two `uint32_t` members of `Resolution`. -/
structure Resolution where
  width : Nat
  height : Nat
deriving DecidableEq, Repr

namespace Resolution

/-- `Resolution::MIN_DIMENSION`. -/
def MIN_DIMENSION : Nat := 1

/-- `Resolution::MAX_DIMENSION`. -/
def MAX_DIMENSION : Nat := 65535

/-- `Resolution::isValid`. -/
def isValid (width height : Nat) : Bool :=
  decide (width ≥ MIN_DIMENSION) && decide (width ≤ MAX_DIMENSION) &&
  decide (height ≥ MIN_DIMENSION) && decide (height ≤ MAX_DIMENSION)

/-- `Resolution::Resolution(uint32_t width, uint32_t height)`. -/
def ofDimensions (width height : Nat) : Except Exn Resolution :=
  if !isValid width height then
    .error (.invalid_argument (str "Invalid resolution dimensions"))
  else .ok ⟨width, height⟩

/-- `Resolution::getWidth`. -/
def getWidth (r : Resolution) : Nat := r.width

/-- `Resolution::getHeight`. -/
def getHeight (r : Resolution) : Nat := r.height

/-- The class invariant: the object was accepted by the constructor. -/
def WF (r : Resolution) : Prop := isValid r.width r.height = true

instance (r : Resolution) : Decidable r.WF := by unfold WF; infer_instance

/-- `Resolution::toString`. -/
def toString (r : Resolution) : CppString :=
  formatDec r.width ++ str "x" ++ formatDec r.height

/-- The `while (b != 0)` loop of `Resolution::gcd`, run for at most `fuel`
passes. -/
def gcdLoop : Nat → Nat → Nat → Nat
  | 0, a, _ => a
  | fuel + 1, a, b => if b ≠ 0 then gcdLoop fuel b (a % b) else a

/-- `Resolution::gcd`. The second argument strictly decreases in every pass of
the loop, so `b + 1` passes are enough for it to finish. -/
def gcd (a b : Nat) : Nat := gcdLoop (b + 1) a b

/-- `Resolution::getAspectRatio`. The quotients are those of `uint32_t`
division. -/
def getAspectRatio (r : Resolution) : CppString :=
  let divisor := gcd r.width r.height
  formatDec (r.width / divisor) ++ str ":" ++ formatDec (r.height / divisor)

/-- `Resolution::getPixelCount`, computed in `uint64_t`. -/
def getPixelCount (r : Resolution) : Nat := (r.width * r.height) % 18446744073709551616

/-- `Resolution::detectScreenResolution`. The platform query
`getPlatformScreenResolution` is the parameter `screen`: `none` when it
returns `false`, and the two `uint32_t` values it stored when it returns
`true`. -/
def detectScreenResolution (screen : Option (Nat × Nat)) : Except Exn Resolution :=
  match screen with
  | some (width, height) =>
    if isValid width height then ofDimensions width height
    else .error (.runtime_error (str "Failed to detect screen resolution"))
  | none => .error (.runtime_error (str "Failed to detect screen resolution"))

/-- `Resolution::Resolution()`: the detected resolution, or 1920x1080 when
detection throws. -/
def new (screen : Option (Nat × Nat)) : Resolution :=
  match detectScreenResolution screen with
  | .ok r => r
  | .error _ => ⟨1920, 1080⟩

/-- `Resolution::HD`. -/
def HD : Except Exn Resolution := ofDimensions 1280 720

/-- `Resolution::FullHD`. -/
def FullHD : Except Exn Resolution := ofDimensions 1920 1080

/-- `Resolution::QHD`. -/
def QHD : Except Exn Resolution := ofDimensions 2560 1440

/-- `Resolution::UHD4K`. -/
def UHD4K : Except Exn Resolution := ofDimensions 3840 2160

end Resolution

/-! ## `STBImageWriter` (formats/STBImageWriter.hpp, formats/STBImageWriter.cpp) -/

/-- Conversion of an `int` to `size_t` (64 bits). -/
def toSizeT (v : Int) : Nat := (v % 18446744073709551616).toNat

/-- Reduction of a product or sum computed in `size_t`. -/
def wrapSizeT (n : Nat) : Nat := n % 18446744073709551616

/-- Reduction of a product computed in `uint32_t`. -/
def wrapUInt32 (n : Nat) : Nat := n % 4294967296

/-- Conversion of an `int` to `uint32_t`. -/
def toUInt32 (v : Int) : Nat := (v % 4294967296).toNat

/-- Conversion of a `uint32_t` to `int`. -/
def toInt32 (n : Nat) : Int := if n < 2147483648 then (n : Int) else (n : Int) - 4294967296

/-- `STBImageWriter::Format`. -/
inductive STBImageWriter.Format where
  | PNG
  | JPEG
  | BMP
deriving DecidableEq, Repr

/-- The members of `STBImageWriter`. -/
structure STBImageWriter where
  format_ : STBImageWriter.Format
  jpegQuality_ : Int
deriving DecidableEq, Repr

/-- A call of one of the three `stb_image_write.h` encoders, with its arguments. -/
inductive StbCall where
  | stbi_write_png (filename : CppString) (w h comp : Int) (data : List Nat)
      (stride_in_bytes : Int)
  | stbi_write_jpg (filename : CppString) (w h comp : Int) (data : List Nat) (quality : Int)
  | stbi_write_bmp (filename : CppString) (w h comp : Int) (data : List Nat)
deriving DecidableEq, Repr

/-- The channel count (`comp`) passed to the encoder. -/
def StbCall.comp : StbCall → Int
  | .stbi_write_png _ _ _ comp _ _ => comp
  | .stbi_write_jpg _ _ _ comp _ _ => comp
  | .stbi_write_bmp _ _ _ comp _ => comp

/-- The row stride passed to the PNG encoder; the other two take none. -/
def StbCall.stride : StbCall → Option Int
  | .stbi_write_png _ _ _ _ _ stride_in_bytes => some stride_in_bytes
  | .stbi_write_jpg _ _ _ _ _ _ => none
  | .stbi_write_bmp _ _ _ _ _ => none

/-- The pixel buffer (`data`) passed to the encoder. -/
def StbCall.data : StbCall → List Nat
  | .stbi_write_png _ _ _ _ data _ => data
  | .stbi_write_jpg _ _ _ _ data _ => data
  | .stbi_write_bmp _ _ _ _ data => data

namespace STBImageWriter

/-- `STBImageWriter::validateQuality`. -/
def validateQuality (quality : Int) : Int :=
  if quality < 0 then 0
  else if quality > 100 then 100
  else quality

/-- `STBImageWriter::STBImageWriter(Format format, int jpegQuality = 95)`. -/
def new (format : Format) (jpegQuality : Int := 95) : STBImageWriter :=
  ⟨format, validateQuality jpegQuality⟩

/-- `STBImageWriter::setJPEGQuality`. -/
def setJPEGQuality (self : STBImageWriter) (quality : Int) : STBImageWriter :=
  { self with jpegQuality_ := validateQuality quality }

/-- `STBImageWriter::getJPEGQuality`. -/
def getJPEGQuality (self : STBImageWriter) : Int := self.jpegQuality_

/-- `STBImageWriter::getFormatName`. -/
def getFormatName (self : STBImageWriter) : CppString :=
  match self.format_ with
  | .PNG => str "PNG"
  | .JPEG => str "JPEG"
  | .BMP => str "BMP"

/-- `STBImageWriter::getExtension`. -/
def getExtension (self : STBImageWriter) : CppString :=
  match self.format_ with
  | .PNG => str ".png"
  | .JPEG => str ".jpg"
  | .BMP => str ".bmp"

/-- `STBImageWriter::supportsTransparency`. -/
def supportsTransparency (self : STBImageWriter) : Bool :=
  self.format_ == .PNG || self.format_ == .BMP

/-- `std::vector<uint8_t>::resize(n)`: truncate, or append zero bytes. -/
def resize (buffer : List Nat) (n : Nat) : List Nat :=
  buffer.take n ++ List.replicate (n - buffer.length) 0

/-- The body of the fill loop of `fillPixelBuffer` for pixel `i`; the indices
are computed in `size_t`. -/
def fillPixel (r g b a : Nat) (channels : Int) (buffer : List Nat) (i : Nat) : List Nat :=
  let buffer := buffer.set (wrapSizeT (wrapSizeT (i * toSizeT channels) + 0)) r
  let buffer := buffer.set (wrapSizeT (wrapSizeT (i * toSizeT channels) + 1)) g
  let buffer := buffer.set (wrapSizeT (wrapSizeT (i * toSizeT channels) + 2)) b
  if channels = 4 then buffer.set (wrapSizeT (wrapSizeT (i * toSizeT channels) + 3)) a
  else buffer

/-- The stores `buffer[index] = value` that the body of the fill loop makes
for pixel `i`, in program order, as pairs `(index, value)`. -/
def pixelWrites (r g b a : Nat) (channels : Int) (i : Nat) : List (Nat × Nat) :=
  [ (wrapSizeT (wrapSizeT (i * toSizeT channels) + 0), r),
    (wrapSizeT (wrapSizeT (i * toSizeT channels) + 1), g),
    (wrapSizeT (wrapSizeT (i * toSizeT channels) + 2), b) ]
  ++ (if channels = 4 then [(wrapSizeT (wrapSizeT (i * toSizeT channels) + 3), a)] else [])

/-- All the stores the fill loop of `fillPixelBuffer` makes, in program
order. -/
def fillWrites (color : Color) (resolution : Resolution) (channels : Int) :
    List (Nat × Nat) :=
  ((List.range (wrapSizeT (resolution.getWidth * resolution.getHeight))).map
    (pixelWrites color.red color.green color.blue color.alpha channels)).flatten

/-- `STBImageWriter::fillPixelBuffer`, returning the buffer it fills. -/
def fillPixelBuffer (buffer : List Nat) (color : Color) (resolution : Resolution)
    (channels : Int) : List Nat :=
  let width := resolution.getWidth
  let height := resolution.getHeight
  let pixelCount := wrapSizeT (width * height)
  let buffer := resize buffer (wrapSizeT (pixelCount * toSizeT channels))
  (List.range pixelCount).foldl
    (fillPixel color.red color.green color.blue color.alpha channels) buffer

/-- The first part of `STBImageWriter::write`: the channel count, the filled
buffer, and the encoder call they are handed to. `Format` has three
enumerators, so the `default` branch of the `switch` is never taken. -/
def writeCall (self : STBImageWriter) (filename : CppString) (color : Color)
    (resolution : Resolution) : StbCall :=
  let width := resolution.getWidth
  let height := resolution.getHeight
  -- Determine number of channels based on format and transparency
  let channels : Int :=
    if self.format_ = .JPEG then 3
    else if color.isOpaque then 3 else 4
  -- Allocate and fill pixel buffer
  let pixels := fillPixelBuffer [] color resolution channels
  match self.format_ with
  | .PNG => .stbi_write_png filename (toInt32 width) (toInt32 height) channels pixels
      (toInt32 (wrapUInt32 (width * toUInt32 channels)))
  | .JPEG => .stbi_write_jpg filename (toInt32 width) (toInt32 height) channels pixels
      self.jpegQuality_
  | .BMP => .stbi_write_bmp filename (toInt32 width) (toInt32 height) channels pixels

/-- `STBImageWriter::write`. The encoder library is a parameter: `stbi` gives
the `int` result of each call. -/
def write (stbi : StbCall → Int) (self : STBImageWriter) (filename : CppString)
    (color : Color) (resolution : Resolution) : Except Exn Bool :=
  let result := stbi (self.writeCall filename color resolution)
  if result = 0 then
    .error (.runtime_error (str "Failed to write image file: " ++ filename))
  else .ok true

end STBImageWriter

/-! ## `ImageWriter` (ImageWriter.hpp, ImageWriter.cpp) -/

/-- `FormatType`. -/
inductive FormatType where
  | PNG
  | JPEG
  | BMP
deriving DecidableEq, Repr

namespace ImageWriter

/-- `ImageWriter::extensionMap_`, as the list of its entries. -/
def extensionMap_ : List (CppString × FormatType) :=
  [ (str "png", .PNG),
    (str ".png", .PNG),
    (str "jpg", .JPEG),
    (str ".jpg", .JPEG),
    (str "jpeg", .JPEG),
    (str ".jpeg", .JPEG),
    (str "bmp", .BMP),
    (str ".bmp", .BMP) ]

/-- `std::map::find`: the value stored under a key equal to `key`, if any. -/
def find (m : List (CppString × FormatType)) (key : CppString) : Option FormatType :=
  match m with
  | [] => none
  | (k, v) :: rest => if key = k then some v else find rest key

/-- `ImageWriter::createWriter`. -/
def createWriter (format : FormatType) : STBImageWriter :=
  match format with
  | .PNG => STBImageWriter.new .PNG
  | .JPEG => STBImageWriter.new .JPEG
  | .BMP => STBImageWriter.new .BMP

/-- `ImageWriter::getFormatFromExtension`. -/
def getFormatFromExtension (extension : CppString) : Except Exn FormatType :=
  let lowerExt := extension.map tolower
  match find extensionMap_ lowerExt with
  | some format => .ok format
  | none => .error (.invalid_argument (str "Unrecognized file extension: " ++ extension))

/-- `ImageWriter::getSupportedExtensions`. -/
def getSupportedExtensions : List CppString :=
  [str ".png", str ".jpg", str ".jpeg", str ".bmp"]

/-- `ImageWriter::isFormatSupported`. -/
def isFormatSupported (format : FormatType) : Bool :=
  match format with
  | .PNG => true
  | .JPEG => true
  | .BMP => true

/-- `ImageWriter::getFormatName`. -/
def getFormatName (format : FormatType) : CppString :=
  match format with
  | .PNG => str "PNG"
  | .JPEG => str "JPEG"
  | .BMP => str "BMP"

/-- `ImageWriter::createWriterFromExtension`. -/
def createWriterFromExtension (extension : CppString) : Except Exn STBImageWriter := do
  let format ← getFormatFromExtension extension
  pure (createWriter format)

end ImageWriter

/-! ## The command line program (main.cpp) -/

/-- The resolution the program falls back to when the screen query does not
give a usable one: the queried `(w, h)` when the query succeeded with both
dimensions in `[1, 65535]`, and 1920x1080 in every other case. -/
def detectedOrFullHD : Option (Nat × Nat) → Resolution
  | some (w, h) => if (1 ≤ w ∧ w ≤ 65535) ∧ (1 ≤ h ∧ h ≤ 65535) then ⟨w, h⟩ else ⟨1920, 1080⟩
  | none => ⟨1920, 1080⟩

/-- `parseResolution`. -/
def parseResolution (s : CppString) : Except Exn Resolution :=
  let xPos := match string_find s 120 with
    | some p => some p
    | none => string_find s 88
  match xPos with
  | none => .error (.invalid_argument
      (str "Invalid resolution format. Use WIDTHxHEIGHT (e.g., 1920x1080)"))
  | some xPos => do
    let width ← stoul (substr s 0 xPos) 10
    let height ← stoul (substrFrom s (xPos + 1)) 10
    Resolution.ofDimensions (wrapUInt32 width) (wrapUInt32 height)

/-- `getFileExtension`. -/
def getFileExtension (filename : CppString) : CppString :=
  match find_last_of filename 46 with
  | some dotPos => substrFrom filename dotPos
  | none => []

/-- The local variables of `main` that the argument loop sets. -/
structure Options where
  colorStr : CppString
  outputFile : CppString
  resolution : Resolution
  useAutoResolution : Bool
  formatStr : CppString
  jpegQuality : Int
deriving DecidableEq, Repr

/-- How the argument loop of `main` ends: with a `return` of an exit code, or
by running to the end with the variables set. -/
inductive ArgsOutcome where
  | exit (code : Int)
  | run (o : Options)
deriving DecidableEq, Repr

/-- The argument loop of `main`, over `argv[i], argv[i+1], ...`. -/
def parseArgs : List CppString → Options → Except Exn ArgsOutcome
  | [], o => .ok (.run o)
  | arg :: rest, o =>
    if arg = str "-h" ∨ arg = str "--help" then .ok (.exit 0)
    else if arg = str "-c" ∨ arg = str "--color" then
      match rest with
      | v :: rest => parseArgs rest { o with colorStr := v }
      | [] => .error (.invalid_argument (str "Missing color value"))
    else if arg = str "-o" ∨ arg = str "--output" then
      match rest with
      | v :: rest => parseArgs rest { o with outputFile := v }
      | [] => .error (.invalid_argument (str "Missing output file"))
    else if arg = str "-r" ∨ arg = str "--resolution" then
      match rest with
      | v :: rest =>
        match parseResolution v with
        | .ok r => parseArgs rest { o with resolution := r, useAutoResolution := false }
        | .error e => .error e
      | [] => .error (.invalid_argument (str "Missing resolution value"))
    else if arg = str "-a" ∨ arg = str "--auto" then
      parseArgs rest { o with useAutoResolution := true }
    else if arg = str "-f" ∨ arg = str "--format" then
      match rest with
      | v :: rest => parseArgs rest { o with formatStr := v }
      | [] => .error (.invalid_argument (str "Missing format value"))
    else if arg = str "-q" ∨ arg = str "--quality" then
      match rest with
      | v :: rest =>
        match stoi v 10 with
        | .ok q => parseArgs rest { o with jpegQuality := q }
        | .error e => .error e
      | [] => .error (.invalid_argument (str "Missing quality value"))
    else if arg = str "--hd" then
      match Resolution.HD with
      | .ok r => parseArgs rest { o with resolution := r, useAutoResolution := false }
      | .error e => .error e
    else if arg = str "--fullhd" then
      match Resolution.FullHD with
      | .ok r => parseArgs rest { o with resolution := r, useAutoResolution := false }
      | .error e => .error e
    else if arg = str "--qhd" then
      match Resolution.QHD with
      | .ok r => parseArgs rest { o with resolution := r, useAutoResolution := false }
      | .error e => .error e
    else if arg = str "--4k" then
      match Resolution.UHD4K with
      | .ok r => parseArgs rest { o with resolution := r, useAutoResolution := false }
      | .error e => .error e
    else .ok (.exit 1)

/-- The auto-detect step of `main`: `detectScreenResolution()` inside `try`,
with `Resolution::FullHD()` in the `catch (const std::exception&)`. -/
def autoDetect (screen : Option (Nat × Nat)) : Except Exn Resolution :=
  match Resolution.detectScreenResolution screen with
  | .ok r => .ok r
  | .error _ => Resolution.FullHD

/-- The step of `main` that determines `extension` from the format flag or
from the output file name. -/
def determineExtension (formatStr outputFile : CppString) : Except Exn CppString :=
  if !formatStr.isEmpty then .ok (str "." ++ formatStr)
  else
    let extension := getFileExtension outputFile
    if extension.isEmpty then
      .error (.invalid_argument
        (str "Cannot determine output format. Specify format with -f or use file extension"))
    else .ok extension

/-- The format `main` resolves for a format flag and an output file: the
lookup `createWriterFromExtension` makes on the extension `main` determined. -/
def resolvedFormat (formatStr outputFile : CppString) : Except Exn FormatType := do
  let extension ← determineExtension formatStr outputFile
  ImageWriter.getFormatFromExtension extension

/-- The step of `main` that sets the JPEG quality. Every writer made by
`createWriter` is an `STBImageWriter`, so the `dynamic_cast` succeeds. -/
def applyQuality (extension : CppString) (writer : STBImageWriter) (jpegQuality : Int) :
    STBImageWriter :=
  if extension = str ".jpg" ∨ extension = str ".jpeg" then writer.setJPEGQuality jpegQuality
  else writer

/-- The buffer of a solid image: `w*h` repetitions of `[r,g,b,a]` when the
format is PNG or BMP and alpha is not 255, and `w*h` repetitions of `[r,g,b]`
otherwise. -/
def solidPixels (c : Color) (f : FormatType) (res : Resolution) : List Nat :=
  if (f = .PNG ∨ f = .BMP) ∧ c.alpha ≠ 255 then
    (List.replicate (res.width * res.height) [c.red, c.green, c.blue, c.alpha]).flatten
  else (List.replicate (res.width * res.height) [c.red, c.green, c.blue]).flatten

/-- The colour text in the line `main` prints before writing:
`color.toHex(!color.isOpaque())`. -/
def printedColor (color : Color) : CppString := color.toHex (!color.isOpaque)

/-- What `main` has when it reaches `writer->write(outputFile, color, resolution)`. -/
structure Job where
  writer : STBImageWriter
  outputFile : CppString
  color : Color
  resolution : Resolution
deriving DecidableEq, Repr

/-- How the part of `main` before the `write` call ends: with a `return` of
an exit code, or with the call to make. -/
inductive Prepared where
  | exit (code : Int)
  | job (j : Job)
deriving DecidableEq, Repr

/-- The steps of `main` between the argument loop and the `write` call. -/
def prepareJob (screen : Option (Nat × Nat)) (o : Options) : Except Exn Prepared := do
  -- Validate required parameters
  if o.outputFile.isEmpty then .ok (.exit 1)
  else
    -- Parse color
    let color ← Color.ofHex o.colorStr
    -- Detect screen resolution if auto mode
    let resolution ← if o.useAutoResolution then autoDetect screen else .ok o.resolution
    -- Determine format from extension or format flag
    let extension ← determineExtension o.formatStr o.outputFile
    -- Create writer
    let writer ← ImageWriter.createWriterFromExtension extension
    -- Special handling for JPEG quality
    let writer := applyQuality extension writer o.jpegQuality
    .ok (.job ⟨writer, o.outputFile, color, resolution⟩)

/-- The part of `main` before the `write` call. `screen0` is the platform
query made by the default-constructed `resolution`, `screen` the one made in
auto mode. -/
def prepare (screen0 screen : Option (Nat × Nat)) (argv : List CppString) :
    Except Exn Prepared :=
  let defaults : Options :=
    { colorStr := str "#000000", outputFile := [], resolution := Resolution.new screen0,
      useAutoResolution := true, formatStr := [], jpegQuality := 95 }
  match parseArgs (argv.drop 1) defaults with
  | .error e => .error e
  | .ok (.exit code) => .ok (.exit code)
  | .ok (.run o) => prepareJob screen o

/-- What `main` does: its exit code and the encoder call it made, if any. -/
structure MainResult where
  exitCode : Int
  call : Option StbCall
deriving DecidableEq, Repr

/-- `main`. Every exception is caught by the outer `catch`, which returns 1. -/
def main (screen0 screen : Option (Nat × Nat)) (stbi : StbCall → Int)
    (argv : List CppString) : MainResult :=
  match prepare screen0 screen argv with
  | .error _ => ⟨1, none⟩
  | .ok (.exit code) => ⟨code, none⟩
  | .ok (.job j) =>
    let call := j.writer.writeCall j.outputFile j.color j.resolution
    match j.writer.write stbi j.outputFile j.color j.resolution with
    | .ok true => ⟨0, some call⟩
    | .ok false => ⟨1, some call⟩
    | .error _ => ⟨1, some call⟩

/-! ## Lemmas: characters and `std::stoi` on hex digits -/

theorem isxdigit_iff (c : Nat) :
    isxdigit c = true ↔ (48 ≤ c ∧ c ≤ 57) ∨ (65 ≤ c ∧ c ≤ 70) ∨ (97 ≤ c ∧ c ≤ 102) := by
  simp [isxdigit, or_assoc]

theorem isxdigit_toupper (c : Nat) : isxdigit (toupper c) = isxdigit c := by
  rw [Bool.eq_iff_iff, isxdigit_iff, isxdigit_iff]
  unfold toupper
  split_ifs <;> omega

theorem toupper_toupper (c : Nat) : toupper (toupper c) = toupper c := by
  unfold toupper
  split_ifs <;> omega

theorem toupper_tolower (c : Nat) : toupper (tolower c) = toupper c := by
  unfold toupper tolower
  split_ifs <;> omega

theorem tolower_toupper (c : Nat) : tolower (toupper c) = tolower c := by
  unfold toupper tolower
  split_ifs <;> omega

theorem hexValue_lt (c : Nat) (h : isxdigit c = true) : hexValue c < 16 := by
  rw [isxdigit_iff] at h
  unfold hexValue
  split_ifs <;> omega

theorem hexValue_toupper (c : Nat) (h : isxdigit c = true) :
    hexValue (toupper c) = hexValue c := by
  rw [isxdigit_iff] at h
  unfold hexValue toupper
  split_ifs <;> omega

theorem digitValue_hex (c : Nat) (h : isxdigit c = true) :
    digitValue 16 c = some (hexValue c) := by
  rw [isxdigit_iff] at h
  unfold digitValue hexValue
  rcases h with h | h | h
  · simp [h, show c - 48 < 16 by omega]
  · have h1 : ¬ (48 ≤ c ∧ c ≤ 57) := by omega
    have h2 : 65 ≤ c ∧ c ≤ 90 := by omega
    have h3 : ¬ c ≤ 57 := by omega
    simp [h1, h2, h3, h.2, show c - 55 < 16 by omega]
  · have h1 : ¬ (48 ≤ c ∧ c ≤ 57) := by omega
    have h2 : ¬ (65 ≤ c ∧ c ≤ 90) := by omega
    have h3 : 97 ≤ c ∧ c ≤ 122 := by omega
    have h4 : ¬ c ≤ 57 := by omega
    have h5 : ¬ c ≤ 70 := by omega
    simp [h1, h2, h3, h4, h5, show c - 87 < 16 by omega]

theorem isspace_of_isxdigit (c : Nat) (h : isxdigit c = true) : isspace c = false := by
  rw [isxdigit_iff] at h
  simp [isspace]
  omega

theorem readSign_of_isxdigit (c : Nat) (t : CppString) (h : isxdigit c = true) :
    readSign (c :: t) = (false, c :: t) := by
  rw [isxdigit_iff] at h
  unfold readSign
  split
  · rename_i heq; simp at heq; omega
  · rename_i heq; simp at heq; omega
  · rfl

theorem skipHexPrefix_pair (base a b : Nat) : skipHexPrefix base [a, b] = [a, b] := by
  unfold skipHexPrefix
  split
  · rename_i heq; simp at heq
  · rfl

/-- On two hex digits `std::stoi(_, nullptr, 16)` returns `16 * hi + lo`. -/
theorem stoi_hex_pair (a b : Nat) (ha : isxdigit a = true) (hb : isxdigit b = true) :
    stoi [a, b] 16 = .ok (16 * (hexValue a : Int) + (hexValue b : Int)) := by
  have la := hexValue_lt a ha
  have lb := hexValue_lt b hb
  unfold stoi
  simp only [List.dropWhile, isspace_of_isxdigit a ha, readSign_of_isxdigit a [b] ha,
    skipHexPrefix_pair, readDigits, digitValue_hex a ha, digitValue_hex b hb, Option.getD]
  simp only [Bool.false_eq_true, if_false]
  rw [if_neg (by omega)]
  congr 1
  omega

theorem toUInt8_pair (x y : Nat) (hx : x < 16) (hy : y < 16) :
    toUInt8 (16 * (x : Int) + (y : Int)) = 16 * x + y := by
  unfold toUInt8
  omega

theorem ok_bind {α β : Type} (a : α) (f : α → Except Exn β) :
    (Except.ok a >>= f) = f a := rfl

theorem error_bind {α β : Type} (e : Exn) (f : α → Except Exn β) :
    ((Except.error e : Except Exn α) >>= f) = Except.error e := rfl

/-- The byte `std::stoi` yields on an upper-cased pair of hex digits, once
stored in a `uint8_t`. -/
theorem stoi_toupper_pair {β : Type} (a b : Nat) (ha : isxdigit a = true)
    (hb : isxdigit b = true) (f : Int → Except Exn β) :
    (stoi [toupper a, toupper b] 16 >>= f)
      = f (16 * (hexValue a : Int) + (hexValue b : Int)) := by
  rw [stoi_hex_pair _ _ (by rw [isxdigit_toupper]; exact ha) (by rw [isxdigit_toupper]; exact hb),
    ok_bind, hexValue_toupper a ha, hexValue_toupper b hb]

/-! ## Lemmas: `Color::parseHex` -/

theorem stripHash_cons_ne (c : Nat) (t : CppString) (h : c ≠ 35) :
    stripHash (c :: t) = c :: t := by
  unfold stripHash
  split
  · rename_i heq; simp at heq; exact absurd heq.1 h
  · rfl

theorem stripHash_hash (t : CppString) : stripHash (35 :: t) = t := rfl

theorem cleaned_eq_stripHash (hex : CppString) :
    (if (!hex.isEmpty && charAt hex 0 == 35) = true then hex.drop 1 else hex)
      = stripHash hex := by
  cases hex with
  | nil => simp [stripHash]
  | cons c t =>
    by_cases hc : c = 35
    · subst hc; simp [stripHash, charAt]
    · rw [stripHash_cons_ne c t hc]
      simp [charAt, hc]

theorem parseHex_three (s : CppString) (a b c : Nat) (hs : stripHash s = [a, b, c])
    (ha : isxdigit a = true) (hb : isxdigit b = true) (hc : isxdigit c = true) :
    Color.parseHex s = .ok ⟨17 * hexValue a, 17 * hexValue b, 17 * hexValue c, 255⟩ := by
  have la := hexValue_lt a ha
  have lb := hexValue_lt b hb
  have lc := hexValue_lt c hc
  unfold Color.parseHex
  simp only [cleaned_eq_stripHash, hs]
  simp only [List.map, List.all, isxdigit_toupper, ha, hb, hc, charAt, List.replicate,
    List.length, List.getD_cons_zero, List.getD_cons_succ, Bool.and_self, Bool.not_true,
    Bool.false_eq_true, if_false, if_true, stoi_toupper_pair, toUInt8_pair _ _ la la,
    toUInt8_pair _ _ lb lb, toUInt8_pair _ _ lc lc]
  have e : ∀ x : Nat, 16 * x + x = 17 * x := fun x => by omega
  simp only [e]
  rfl

theorem parseHex_six (s : CppString) (d0 d1 d2 d3 d4 d5 : Nat)
    (hs : stripHash s = [d0, d1, d2, d3, d4, d5])
    (h0 : isxdigit d0 = true) (h1 : isxdigit d1 = true) (h2 : isxdigit d2 = true)
    (h3 : isxdigit d3 = true) (h4 : isxdigit d4 = true) (h5 : isxdigit d5 = true) :
    Color.parseHex s = .ok ⟨16 * hexValue d0 + hexValue d1, 16 * hexValue d2 + hexValue d3,
      16 * hexValue d4 + hexValue d5, 255⟩ := by
  have l0 := hexValue_lt d0 h0
  have l1 := hexValue_lt d1 h1
  have l2 := hexValue_lt d2 h2
  have l3 := hexValue_lt d3 h3
  have l4 := hexValue_lt d4 h4
  have l5 := hexValue_lt d5 h5
  unfold Color.parseHex
  simp only [cleaned_eq_stripHash, hs]
  simp only [List.map, List.all, isxdigit_toupper, h0, h1, h2, h3, h4, h5, substr, List.drop,
    List.take, List.length, Bool.and_self, Bool.not_true,
    Bool.false_eq_true, if_false, if_true, stoi_toupper_pair, toUInt8_pair _ _ l0 l1,
    toUInt8_pair _ _ l2 l3, toUInt8_pair _ _ l4 l5]
  rfl

theorem parseHex_eight (s : CppString) (d0 d1 d2 d3 d4 d5 d6 d7 : Nat)
    (hs : stripHash s = [d0, d1, d2, d3, d4, d5, d6, d7])
    (h0 : isxdigit d0 = true) (h1 : isxdigit d1 = true) (h2 : isxdigit d2 = true)
    (h3 : isxdigit d3 = true) (h4 : isxdigit d4 = true) (h5 : isxdigit d5 = true)
    (h6 : isxdigit d6 = true) (h7 : isxdigit d7 = true) :
    Color.parseHex s = .ok ⟨16 * hexValue d0 + hexValue d1, 16 * hexValue d2 + hexValue d3,
      16 * hexValue d4 + hexValue d5, 16 * hexValue d6 + hexValue d7⟩ := by
  have l0 := hexValue_lt d0 h0
  have l1 := hexValue_lt d1 h1
  have l2 := hexValue_lt d2 h2
  have l3 := hexValue_lt d3 h3
  have l4 := hexValue_lt d4 h4
  have l5 := hexValue_lt d5 h5
  have l6 := hexValue_lt d6 h6
  have l7 := hexValue_lt d7 h7
  unfold Color.parseHex
  simp only [cleaned_eq_stripHash, hs]
  simp only [List.map, List.all, isxdigit_toupper, h0, h1, h2, h3, h4, h5, h6, h7, substr,
    List.drop, List.take, List.length, Bool.and_self, Bool.not_true,
    Bool.false_eq_true, if_false, if_true, stoi_toupper_pair, toUInt8_pair _ _ l0 l1,
    toUInt8_pair _ _ l2 l3, toUInt8_pair _ _ l4 l5, toUInt8_pair _ _ l6 l7]
  rfl

theorem all_isxdigit_map_toupper (t : CppString) :
    (t.map toupper).all isxdigit = t.all isxdigit := by
  induction t with
  | nil => rfl
  | cons c t ih => simp only [List.map, List.all_cons, isxdigit_toupper, ih]

theorem parseHex_nonhex (s : CppString) (h : (stripHash s).all isxdigit = false) :
    Color.parseHex s = .error (.invalid_argument
      (str "Invalid hex color format: contains non-hex characters")) := by
  unfold Color.parseHex
  simp only [cleaned_eq_stripHash, all_isxdigit_map_toupper, h]
  rfl

theorem parseHex_badLength (s : CppString) (h : (stripHash s).all isxdigit = true)
    (h3 : (stripHash s).length ≠ 3) (h6 : (stripHash s).length ≠ 6)
    (h8 : (stripHash s).length ≠ 8) :
    Color.parseHex s = .error (.invalid_argument
      (str "Invalid hex color format: must be 3, 6, or 8 characters (optionally with #)")) := by
  unfold Color.parseHex
  simp only [cleaned_eq_stripHash, all_isxdigit_map_toupper, h, List.length_map, h3, h6, h8]
  rfl

theorem parseHex_congr (s t : CppString)
    (h : (stripHash s).map toupper = (stripHash t).map toupper) :
    Color.parseHex s = Color.parseHex t := by
  unfold Color.parseHex
  simp only [cleaned_eq_stripHash, h]

theorem toupper_ne_hash (c : Nat) (h : c ≠ 35) : toupper c ≠ 35 := by
  unfold toupper
  split_ifs <;> omega

theorem tolower_ne_hash (c : Nat) (h : c ≠ 35) : tolower c ≠ 35 := by
  unfold tolower
  split_ifs <;> omega

theorem stripHash_map_toupper (s : CppString) :
    stripHash (s.map toupper) = (stripHash s).map toupper := by
  cases s with
  | nil => rfl
  | cons c t =>
    by_cases hc : c = 35
    · subst hc; rfl
    · rw [List.map_cons, stripHash_cons_ne _ _ (toupper_ne_hash c hc), stripHash_cons_ne _ _ hc,
        List.map_cons]

theorem stripHash_map_tolower (s : CppString) :
    stripHash (s.map tolower) = (stripHash s).map tolower := by
  cases s with
  | nil => rfl
  | cons c t =>
    by_cases hc : c = 35
    · subst hc; rfl
    · rw [List.map_cons, stripHash_cons_ne _ _ (tolower_ne_hash c hc), stripHash_cons_ne _ _ hc,
        List.map_cons]

theorem map_toupper_toupper (t : CppString) :
    (t.map toupper).map toupper = t.map toupper := by
  rw [List.map_map]
  exact List.map_congr_left (fun c _ => toupper_toupper c)

theorem map_toupper_tolower (t : CppString) :
    (t.map tolower).map toupper = t.map toupper := by
  rw [List.map_map]
  exact List.map_congr_left (fun c _ => toupper_tolower c)

theorem parseHex_ok_of_valid (s : CppString) (hall : (stripHash s).all isxdigit = true)
    (hlen : (stripHash s).length = 3 ∨ (stripHash s).length = 6 ∨ (stripHash s).length = 8) :
    ∃ c, Color.parseHex s = .ok c := by
  rcases hlen with hlen | hlen | hlen
  · rcases hs : stripHash s with _ | ⟨a, _ | ⟨b, _ | ⟨c, _ | ⟨d, t⟩⟩⟩⟩ <;>
      rw [hs] at hlen <;> simp at hlen
    rw [hs] at hall
    simp only [List.all_cons, List.all_nil, Bool.and_true, Bool.and_eq_true] at hall
    exact ⟨_, parseHex_three s a b c hs hall.1 hall.2.1 hall.2.2⟩
  · rcases hs : stripHash s with
      _ | ⟨d0, _ | ⟨d1, _ | ⟨d2, _ | ⟨d3, _ | ⟨d4, _ | ⟨d5, _ | ⟨d6, t⟩⟩⟩⟩⟩⟩⟩ <;>
      rw [hs] at hlen <;> simp at hlen
    rw [hs] at hall
    simp only [List.all_cons, List.all_nil, Bool.and_true, Bool.and_eq_true] at hall
    exact ⟨_, parseHex_six s d0 d1 d2 d3 d4 d5 hs hall.1 hall.2.1 hall.2.2.1 hall.2.2.2.1
      hall.2.2.2.2.1 hall.2.2.2.2.2⟩
  · rcases hs : stripHash s with
      _ | ⟨d0, _ | ⟨d1, _ | ⟨d2, _ | ⟨d3, _ | ⟨d4, _ | ⟨d5, _ | ⟨d6, _ | ⟨d7, _ | ⟨d8, t⟩⟩⟩⟩⟩⟩⟩⟩⟩
      <;> rw [hs] at hlen <;> simp at hlen
    rw [hs] at hall
    simp only [List.all_cons, List.all_nil, Bool.and_true, Bool.and_eq_true] at hall
    exact ⟨_, parseHex_eight s d0 d1 d2 d3 d4 d5 d6 d7 hs hall.1 hall.2.1 hall.2.2.1
      hall.2.2.2.1 hall.2.2.2.2.1 hall.2.2.2.2.2.1 hall.2.2.2.2.2.2.1 hall.2.2.2.2.2.2.2⟩

/-! ## Lemmas: `Color::toHex` -/

theorem setw_formatHex (n : Nat) (h : n < 256) :
    setw 2 48 (formatHex n) = [hexDigitChar (n / 16), hexDigitChar (n % 16)] := by
  unfold formatHex
  by_cases h16 : n / 16 = 0
  · simp only [hexDigitsAux, h16, if_true]
    rfl
  · obtain ⟨m, rfl⟩ : ∃ m, n = m + 1 := ⟨n - 1, by omega⟩
    have h2 : (m + 1) / 16 / 16 = 0 := by omega
    have h3 : (m + 1) / 16 % 16 = (m + 1) / 16 := by omega
    simp only [hexDigitsAux, h16, if_false, h2, if_true, h3]
    rfl

theorem isxdigit_hexDigitChar (d : Nat) (h : d < 16) : isxdigit (hexDigitChar d) = true := by
  rw [isxdigit_iff]
  unfold hexDigitChar
  split_ifs <;> omega

theorem hexValue_hexDigitChar (d : Nat) (h : d < 16) : hexValue (hexDigitChar d) = d := by
  unfold hexValue hexDigitChar
  split_ifs <;> omega

/-! ## Theorems: hex parsing and formatting of `Color` -/

/-- C1: for hex digits `d0 .. d7`, `Color(hex)` on the 6-digit string
`d0 .. d5`, with or without a leading `'#'`, succeeds with red, green and blue
equal to `16*hi + lo` of the digit pairs at positions 0-1, 2-3, 4-5 and
alpha 255; on the 8-digit string `d0 .. d7` the same holds for red, green, blue
and alpha is the value of the pair at positions 6-7. -/
theorem ofHex_six_and_eight_digits (d0 d1 d2 d3 d4 d5 d6 d7 : Nat)
    (h : ∀ d ∈ [d0, d1, d2, d3, d4, d5, d6, d7], isxdigit d = true) :
    Color.ofHex [d0, d1, d2, d3, d4, d5]
        = .ok ⟨16 * hexValue d0 + hexValue d1, 16 * hexValue d2 + hexValue d3,
            16 * hexValue d4 + hexValue d5, 255⟩
    ∧ Color.ofHex (35 :: [d0, d1, d2, d3, d4, d5])
        = .ok ⟨16 * hexValue d0 + hexValue d1, 16 * hexValue d2 + hexValue d3,
            16 * hexValue d4 + hexValue d5, 255⟩
    ∧ Color.ofHex [d0, d1, d2, d3, d4, d5, d6, d7]
        = .ok ⟨16 * hexValue d0 + hexValue d1, 16 * hexValue d2 + hexValue d3,
            16 * hexValue d4 + hexValue d5, 16 * hexValue d6 + hexValue d7⟩
    ∧ Color.ofHex (35 :: [d0, d1, d2, d3, d4, d5, d6, d7])
        = .ok ⟨16 * hexValue d0 + hexValue d1, 16 * hexValue d2 + hexValue d3,
            16 * hexValue d4 + hexValue d5, 16 * hexValue d6 + hexValue d7⟩ := by
  simp only [List.mem_cons, List.mem_singleton, List.not_mem_nil, or_false, forall_eq_or_imp,
    forall_eq] at h
  obtain ⟨h0, h1, h2, h3, h4, h5, h6, h7⟩ := h
  have hne : d0 ≠ 35 := by
    intro e
    rw [e] at h0
    exact absurd h0 (by decide)
  unfold Color.ofHex
  refine ⟨?_, ?_, ?_, ?_⟩
  · exact parseHex_six _ d0 d1 d2 d3 d4 d5 (stripHash_cons_ne _ _ hne) h0 h1 h2 h3 h4 h5
  · exact parseHex_six _ d0 d1 d2 d3 d4 d5 (stripHash_hash _) h0 h1 h2 h3 h4 h5
  · exact parseHex_eight _ d0 d1 d2 d3 d4 d5 d6 d7 (stripHash_cons_ne _ _ hne)
      h0 h1 h2 h3 h4 h5 h6 h7
  · exact parseHex_eight _ d0 d1 d2 d3 d4 d5 d6 d7 (stripHash_hash _) h0 h1 h2 h3 h4 h5 h6 h7

/-- The digits of `FF573380`: `#FF5733` is (255, 87, 51, 255) and `#FF573380`
is (255, 87, 51, 128). -/
theorem ofHex_six_and_eight_digits_witness :
    (∀ d ∈ [70, 70, 53, 55, 51, 51, 56, 48], isxdigit d = true)
    ∧ Color.ofHex (str "FF5733") = .ok ⟨255, 87, 51, 255⟩
    ∧ Color.ofHex (str "#FF5733") = .ok ⟨255, 87, 51, 255⟩
    ∧ Color.ofHex (str "FF573380") = .ok ⟨255, 87, 51, 128⟩
    ∧ Color.ofHex (str "#FF573380") = .ok ⟨255, 87, 51, 128⟩ :=
  ⟨by decide, ofHex_six_and_eight_digits 70 70 53 55 51 51 56 48 (by decide)⟩

/-- C2: for hex digits `a`, `b`, `c` of either case, `Color("abc")`, with or
without a leading `'#'`, succeeds with red = 17*val(a), green = 17*val(b),
blue = 17*val(c), alpha = 255, and equals `Color("aabbcc")`; in particular
`Color("F0A") == Color("FF00AA")`. -/
theorem ofHex_three_digits (a b c : Nat) (ha : isxdigit a = true) (hb : isxdigit b = true)
    (hc : isxdigit c = true) :
    Color.ofHex [a, b, c] = .ok ⟨17 * hexValue a, 17 * hexValue b, 17 * hexValue c, 255⟩
    ∧ Color.ofHex (35 :: [a, b, c])
        = .ok ⟨17 * hexValue a, 17 * hexValue b, 17 * hexValue c, 255⟩
    ∧ Color.ofHex [a, b, c] = Color.ofHex [a, a, b, b, c, c]
    ∧ Color.ofHex (35 :: [a, b, c]) = Color.ofHex (35 :: [a, a, b, b, c, c])
    ∧ Color.ofHex (str "F0A") = Color.ofHex (str "FF00AA") := by
  have hne : a ≠ 35 := by
    intro e
    rw [e] at ha
    exact absurd ha (by decide)
  have e : ∀ x : Nat, 16 * x + x = 17 * x := fun x => by omega
  have h3 := parseHex_three [a, b, c] a b c (stripHash_cons_ne _ _ hne) ha hb hc
  have h3' := parseHex_three (35 :: [a, b, c]) a b c (stripHash_hash _) ha hb hc
  have h6 := parseHex_six [a, a, b, b, c, c] a a b b c c (stripHash_cons_ne _ _ hne)
    ha ha hb hb hc hc
  have h6' := parseHex_six (35 :: [a, a, b, b, c, c]) a a b b c c (stripHash_hash _)
    ha ha hb hb hc hc
  simp only [e] at h6 h6'
  unfold Color.ofHex
  exact ⟨h3, h3', h3.trans h6.symm, h3'.trans h6'.symm, by decide⟩

/-- The digits `f`, `0`, `A`: `f0A` is (255, 0, 170, 255). -/
theorem ofHex_three_digits_witness :
    isxdigit 102 = true ∧ isxdigit 48 = true ∧ isxdigit 65 = true
    ∧ Color.ofHex (str "f0A") = .ok ⟨255, 0, 170, 255⟩
    ∧ Color.ofHex (str "#f0A") = .ok ⟨255, 0, 170, 255⟩
    ∧ Color.ofHex (str "f0A") = Color.ofHex (str "ff00AA")
    ∧ Color.ofHex (str "#f0A") = Color.ofHex (str "#ff00AA")
    ∧ Color.ofHex (str "F0A") = Color.ofHex (str "FF00AA") :=
  ⟨by decide, by decide, by decide,
    ofHex_three_digits 102 48 65 (by decide) (by decide) (by decide)⟩

/-- C3: `Color(s)` throws if and only if the string left after removing one
optional leading `'#'` contains a character that is not a hex digit or has a
length other than 3, 6 or 8; every failure is a `std::invalid_argument` and
yields no `Color`; `"GG0000"`, `"12345"`, `""` and `"#"` all fail. -/
theorem ofHex_fails_iff (s : CppString) :
    (failed (Color.ofHex s) = true ↔
      ((∃ c ∈ stripHash s, isxdigit c = false)
        ∨ ((stripHash s).length ≠ 3 ∧ (stripHash s).length ≠ 6 ∧ (stripHash s).length ≠ 8)))
    ∧ (failed (Color.ofHex s) = true → failedInvalidArgument (Color.ofHex s) = true)
    ∧ (failed (Color.ofHex s) = true → ∀ c, Color.ofHex s ≠ .ok c)
    ∧ failedInvalidArgument (Color.ofHex (str "GG0000")) = true
    ∧ failedInvalidArgument (Color.ofHex (str "12345")) = true
    ∧ failedInvalidArgument (Color.ofHex (str "")) = true
    ∧ failedInvalidArgument (Color.ofHex (str "#")) = true := by
  unfold Color.ofHex
  refine ⟨?_, ?_, ?_, by decide, by decide, by decide, by decide⟩
  · by_cases hall : (stripHash s).all isxdigit = true
    · have hno : ¬ ∃ c ∈ stripHash s, isxdigit c = false := by
        rintro ⟨c, hc, hx⟩
        rw [List.all_eq_true] at hall
        rw [hall c hc] at hx
        exact absurd hx (by decide)
      by_cases hlen : (stripHash s).length = 3 ∨ (stripHash s).length = 6
          ∨ (stripHash s).length = 8
      · obtain ⟨c, hc⟩ := parseHex_ok_of_valid s hall hlen
        rw [hc]
        simp only [failed, Bool.false_eq_true, false_iff]
        rintro (h | h)
        · exact hno h
        · omega
      · have h3 : (stripHash s).length ≠ 3 := fun e => hlen (Or.inl e)
        have h6 : (stripHash s).length ≠ 6 := fun e => hlen (Or.inr (Or.inl e))
        have h8 : (stripHash s).length ≠ 8 := fun e => hlen (Or.inr (Or.inr e))
        rw [parseHex_badLength s hall h3 h6 h8]
        simp only [failed, true_iff]
        exact Or.inr ⟨h3, h6, h8⟩
    · have hall' : (stripHash s).all isxdigit = false := by
        simpa using hall
      rw [parseHex_nonhex s hall']
      simp only [failed, true_iff]
      left
      rw [List.all_eq_false] at hall'
      obtain ⟨c, hc, hx⟩ := hall'
      exact ⟨c, hc, by simpa using hx⟩
  · intro hf
    by_cases hall : (stripHash s).all isxdigit = true
    · by_cases hlen : (stripHash s).length = 3 ∨ (stripHash s).length = 6
          ∨ (stripHash s).length = 8
      · obtain ⟨c, hc⟩ := parseHex_ok_of_valid s hall hlen
        rw [hc] at hf
        exact absurd hf (by simp [failed])
      · have h3 : (stripHash s).length ≠ 3 := fun e => hlen (Or.inl e)
        have h6 : (stripHash s).length ≠ 6 := fun e => hlen (Or.inr (Or.inl e))
        have h8 : (stripHash s).length ≠ 8 := fun e => hlen (Or.inr (Or.inr e))
        rw [parseHex_badLength s hall h3 h6 h8]
        rfl
    · rw [parseHex_nonhex s (by simpa using hall)]
      rfl
  · intro hf c hc
    rw [hc] at hf
    exact absurd hf (by simp [failed])

/-- C4: for every `Color` `c` with 8-bit channels, `Color(c.toHex(true))`
succeeds and has the same red, green, blue and alpha as `c`. -/
theorem ofHex_toHex_roundtrip (c : Color) (h : c.WF) :
    Color.ofHex (c.toHex true) = .ok c := by
  obtain ⟨r, g, b, a⟩ := c
  obtain ⟨hr, hg, hb, ha⟩ := h
  simp only at hr hg hb ha
  have hd : ∀ n : Nat, n < 256 → n / 16 < 16 := fun n hn => by omega
  have hm : ∀ n : Nat, n % 16 < 16 := fun n => by omega
  have hs : stripHash (Color.toHex ⟨r, g, b, a⟩ true)
      = [hexDigitChar (r / 16), hexDigitChar (r % 16), hexDigitChar (g / 16),
          hexDigitChar (g % 16), hexDigitChar (b / 16), hexDigitChar (b % 16),
          hexDigitChar (a / 16), hexDigitChar (a % 16)] := by
    simp only [Color.toHex, if_true, setw_formatHex r hr, setw_formatHex g hg,
      setw_formatHex b hb, setw_formatHex a ha]
    rfl
  unfold Color.ofHex
  rw [parseHex_eight _ _ _ _ _ _ _ _ _ hs
    (isxdigit_hexDigitChar _ (hd r hr)) (isxdigit_hexDigitChar _ (hm r))
    (isxdigit_hexDigitChar _ (hd g hg)) (isxdigit_hexDigitChar _ (hm g))
    (isxdigit_hexDigitChar _ (hd b hb)) (isxdigit_hexDigitChar _ (hm b))
    (isxdigit_hexDigitChar _ (hd a ha)) (isxdigit_hexDigitChar _ (hm a))]
  simp only [hexValue_hexDigitChar _ (hd r hr), hexValue_hexDigitChar _ (hm r),
    hexValue_hexDigitChar _ (hd g hg), hexValue_hexDigitChar _ (hm g),
    hexValue_hexDigitChar _ (hd b hb), hexValue_hexDigitChar _ (hm b),
    hexValue_hexDigitChar _ (hd a ha), hexValue_hexDigitChar _ (hm a), Nat.div_add_mod]

/-- The colour (255, 5, 0, 171) prints as `#FF0500AB` and parses back. -/
theorem ofHex_toHex_roundtrip_witness :
    (Color.mk 255 5 0 171).WF
    ∧ (Color.mk 255 5 0 171).toHex true = str "#FF0500AB"
    ∧ Color.ofHex ((Color.mk 255 5 0 171).toHex true) = .ok (Color.mk 255 5 0 171) :=
  ⟨by decide, by decide, ofHex_toHex_roundtrip (Color.mk 255 5 0 171) (by decide)⟩

/-- C5: hex parsing ignores letter case and exactly one leading `'#'`:
`Color(s)`, `Color(uppercase(s))` and `Color(lowercase(s))` have the same
outcome; when `s` does not start with `'#'`, `Color("#" + s)` has the same
outcome as `Color(s)`; and a string starting with two `'#'` always fails. -/
theorem ofHex_case_and_hash (s : CppString) :
    Color.ofHex (s.map toupper) = Color.ofHex s
    ∧ Color.ofHex (s.map tolower) = Color.ofHex s
    ∧ (s.head? ≠ some 35 → Color.ofHex (35 :: s) = Color.ofHex s)
    ∧ failedInvalidArgument (Color.ofHex (35 :: 35 :: s)) = true := by
  unfold Color.ofHex
  refine ⟨?_, ?_, ?_, ?_⟩
  · apply parseHex_congr
    rw [stripHash_map_toupper, map_toupper_toupper]
  · apply parseHex_congr
    rw [stripHash_map_tolower, map_toupper_tolower]
  · intro hhead
    apply parseHex_congr
    rw [stripHash_hash]
    cases s with
    | nil => rfl
    | cons c t =>
      have hc : c ≠ 35 := fun e => hhead (by rw [e]; rfl)
      rw [stripHash_cons_ne c t hc]
  · rw [parseHex_nonhex _ (by rw [stripHash_hash]; rfl)]
    rfl

/-! ## Lemmas: the fill loop of `STBImageWriter::fillPixelBuffer` -/

theorem wrapSizeT_of_lt (n : Nat) (h : n < 18446744073709551616) : wrapSizeT n = n :=
  Nat.mod_eq_of_lt h

theorem toSizeT_three : toSizeT 3 = 3 := by decide

theorem toSizeT_four : toSizeT 4 = 4 := by decide

theorem length_flatten_replicate (n : Nat) (p : List Nat) :
    (List.replicate n p).flatten.length = n * p.length := by
  induction n with
  | zero => simp
  | succ n ih =>
    rw [List.replicate_succ, List.flatten_cons, List.length_append, ih]
    ring

/-- The group of bytes of pixel `i` in `n` repetitions of `p` is `p`. -/
theorem group_flatten_replicate (n i : Nat) (p : List Nat) (hi : i < n) :
    ((List.replicate n p).flatten.drop (i * p.length)).take p.length = p := by
  obtain ⟨m, rfl⟩ : ∃ m, n = i + (m + 1) := ⟨n - i - 1, by omega⟩
  rw [List.replicate_add, List.flatten_append, List.replicate_succ, List.flatten_cons,
    List.drop_left' (length_flatten_replicate i p), List.take_left]

/-- One pass of the loop body with 3 channels overwrites the three bytes of
pixel `i` and nothing else. -/
theorem fillPixel_three (r g b a : Nat) (pre q post : List Nat) (i : Nat)
    (hpre : pre.length = i * 3) (hq : q.length = 3)
    (hi : i * 3 + 2 < 18446744073709551616) :
    STBImageWriter.fillPixel r g b a 3 (pre ++ q ++ post) i = pre ++ [r, g, b] ++ post := by
  obtain ⟨x, y, z, rfl⟩ := List.length_eq_three.mp hq
  unfold STBImageWriter.fillPixel
  rw [toSizeT_three, wrapSizeT_of_lt (i * 3) (by omega), wrapSizeT_of_lt (i * 3 + 0) (by omega),
    wrapSizeT_of_lt (i * 3 + 1) (by omega), wrapSizeT_of_lt (i * 3 + 2) (by omega)]
  simp only [show ¬ ((3 : Int) = 4) by decide, if_false, List.append_assoc]
  rw [List.set_append_right _ _ (by omega), List.set_append_right _ _ (by omega),
    List.set_append_right _ _ (by omega)]
  simp only [hpre, Nat.add_sub_cancel_left]
  rfl

/-- One pass of the loop body with 4 channels overwrites the four bytes of
pixel `i` and nothing else. -/
theorem fillPixel_four (r g b a : Nat) (pre q post : List Nat) (i : Nat)
    (hpre : pre.length = i * 4) (hq : q.length = 4)
    (hi : i * 4 + 3 < 18446744073709551616) :
    STBImageWriter.fillPixel r g b a 4 (pre ++ q ++ post) i
      = pre ++ [r, g, b, a] ++ post := by
  rcases q with _ | ⟨x, _ | ⟨y, _ | ⟨z, _ | ⟨w, _ | ⟨v, t⟩⟩⟩⟩⟩ <;> simp at hq
  unfold STBImageWriter.fillPixel
  rw [toSizeT_four, wrapSizeT_of_lt (i * 4) (by omega), wrapSizeT_of_lt (i * 4 + 0) (by omega),
    wrapSizeT_of_lt (i * 4 + 1) (by omega), wrapSizeT_of_lt (i * 4 + 2) (by omega),
    wrapSizeT_of_lt (i * 4 + 3) (by omega)]
  simp only [if_true, List.append_assoc]
  rw [List.set_append_right _ _ (by omega), List.set_append_right _ _ (by omega),
    List.set_append_right _ _ (by omega), List.set_append_right _ _ (by omega)]
  simp only [hpre, Nat.add_sub_cancel_left]
  rfl

/-- The loop invariant: after `n` passes the first `n` pixels hold `p` and the
rest of the buffer is untouched. -/
theorem foldl_fill (f : List Nat → Nat → List Nat) (p : List Nat) (N : Nat)
    (hstep : ∀ (pre q post : List Nat) (i : Nat), i < N → pre.length = i * p.length →
      q.length = p.length → f (pre ++ q ++ post) i = pre ++ p ++ post)
    (buf : List Nat) (hbuf : buf.length = N * p.length) :
    ∀ n, n ≤ N → (List.range n).foldl f buf
      = (List.replicate n p).flatten ++ buf.drop (n * p.length) := by
  intro n
  induction n with
  | zero => intro _; simp
  | succ n ih =>
    intro hn
    have hle : (n + 1) * p.length ≤ N * p.length := Nat.mul_le_mul_right _ hn
    rw [List.range_succ, List.foldl_append, ih (by omega), List.foldl_cons, List.foldl_nil]
    have hsplit : buf.drop (n * p.length)
        = (buf.drop (n * p.length)).take p.length ++ buf.drop ((n + 1) * p.length) := by
      rw [show (n + 1) * p.length = n * p.length + p.length by ring, ← List.drop_drop,
        List.take_append_drop]
    rw [hsplit, ← List.append_assoc,
      hstep _ _ _ n (by omega) (length_flatten_replicate n p)
        (by rw [List.length_take, List.length_drop, hbuf]
            have : (n + 1) * p.length = n * p.length + p.length := by ring
            omega),
      List.replicate_succ', List.flatten_append]
    simp

theorem length_resize (buffer : List Nat) (n : Nat) :
    (STBImageWriter.resize buffer n).length = n := by
  unfold STBImageWriter.resize
  rw [List.length_append, List.length_take, List.length_replicate]
  omega

theorem isValid_iff (w h : Nat) :
    Resolution.isValid w h = true ↔ (1 ≤ w ∧ w ≤ 65535) ∧ (1 ≤ h ∧ h ≤ 65535) := by
  simp [Resolution.isValid, Resolution.MIN_DIMENSION, Resolution.MAX_DIMENSION, and_assoc]

theorem pixelCount_le (res : Resolution) (hres : res.WF) :
    res.width * res.height ≤ 4294836225 := by
  have h := (isValid_iff _ _).mp hres
  calc res.width * res.height ≤ 65535 * 65535 := Nat.mul_le_mul h.1.2 h.2.2
    _ = 4294836225 := by norm_num

/-- With 3 channels the filled buffer is `width*height` repetitions of
`[r, g, b]`, whatever the buffer held before. -/
theorem fillPixelBuffer_three (buffer : List Nat) (c : Color) (res : Resolution)
    (hres : res.WF) :
    STBImageWriter.fillPixelBuffer buffer c res 3
      = (List.replicate (res.width * res.height) [c.red, c.green, c.blue]).flatten := by
  have hN := pixelCount_le res hres
  unfold STBImageWriter.fillPixelBuffer Resolution.getWidth Resolution.getHeight
  simp only [toSizeT_three]
  rw [wrapSizeT_of_lt (res.width * res.height) (by omega),
    wrapSizeT_of_lt (res.width * res.height * 3) (by omega)]
  have hlen := length_resize buffer (res.width * res.height * 3)
  rw [foldl_fill _ [c.red, c.green, c.blue] (res.width * res.height)
    (fun pre q post i hi hpre hq =>
      fillPixel_three c.red c.green c.blue c.alpha pre q post i hpre hq
        (by simp only [List.length] at hpre; omega))
    _ hlen _ (Nat.le_refl _)]
  rw [List.drop_eq_nil_of_le (by rw [hlen]; simp), List.append_nil]

/-- With 4 channels the filled buffer is `width*height` repetitions of
`[r, g, b, a]`, whatever the buffer held before. -/
theorem fillPixelBuffer_four (buffer : List Nat) (c : Color) (res : Resolution)
    (hres : res.WF) :
    STBImageWriter.fillPixelBuffer buffer c res 4
      = (List.replicate (res.width * res.height)
          [c.red, c.green, c.blue, c.alpha]).flatten := by
  have hN := pixelCount_le res hres
  unfold STBImageWriter.fillPixelBuffer Resolution.getWidth Resolution.getHeight
  simp only [toSizeT_four]
  rw [wrapSizeT_of_lt (res.width * res.height) (by omega),
    wrapSizeT_of_lt (res.width * res.height * 4) (by omega)]
  have hlen := length_resize buffer (res.width * res.height * 4)
  rw [foldl_fill _ [c.red, c.green, c.blue, c.alpha] (res.width * res.height)
    (fun pre q post i hi hpre hq =>
      fillPixel_four c.red c.green c.blue c.alpha pre q post i hpre hq
        (by simp only [List.length] at hpre; omega))
    _ hlen _ (Nat.le_refl _)]
  rw [List.drop_eq_nil_of_le (by rw [hlen]; simp), List.append_nil]

/-! ## Theorems: `Resolution`, the pixel fill and the channel count -/

/-- C6: `Resolution(w, h)` succeeds if and only if `1 <= w <= 65535` and
`1 <= h <= 65535`; on success `getWidth() == w` and `getHeight() == h` (no
clamping); every failure is a `std::invalid_argument`; `Resolution(0,100)`
and `Resolution(100,70000)` fail. -/
theorem ofDimensions_ok_iff (w h : Nat) :
    ((∃ r, Resolution.ofDimensions w h = .ok r)
      ↔ (1 ≤ w ∧ w ≤ 65535) ∧ (1 ≤ h ∧ h ≤ 65535))
    ∧ (∀ r, Resolution.ofDimensions w h = .ok r → r.getWidth = w ∧ r.getHeight = h)
    ∧ (failed (Resolution.ofDimensions w h) = true
        ↔ ¬ ((1 ≤ w ∧ w ≤ 65535) ∧ (1 ≤ h ∧ h ≤ 65535)))
    ∧ (failed (Resolution.ofDimensions w h) = true
        → failedInvalidArgument (Resolution.ofDimensions w h) = true)
    ∧ failedInvalidArgument (Resolution.ofDimensions 0 100) = true
    ∧ failedInvalidArgument (Resolution.ofDimensions 100 70000) = true := by
  refine ⟨?_, ?_, ?_, ?_, by decide, by decide⟩
  · rw [← isValid_iff]
    unfold Resolution.ofDimensions
    cases hv : Resolution.isValid w h <;> simp
  · intro r hr
    unfold Resolution.ofDimensions at hr
    cases hv : Resolution.isValid w h
    · rw [hv] at hr; simp at hr
    · rw [hv] at hr
      simp only [Bool.not_true, Bool.false_eq_true, if_false, Except.ok.injEq] at hr
      rw [← hr]
      exact ⟨rfl, rfl⟩
  · rw [← isValid_iff]
    unfold Resolution.ofDimensions
    cases hv : Resolution.isValid w h <;> simp [failed]
  · unfold Resolution.ofDimensions
    cases hv : Resolution.isValid w h <;> simp [failed, failedInvalidArgument,
      Exn.isInvalidArgument]

/-- C7: for every colour, every valid resolution `(w,h)` and `k` in `{3,4}`,
`fillPixelBuffer` yields a buffer of length exactly `w*h*k` in which, for
every pixel index `i < w*h`, the bytes `i*k .. i*k+k-1` are `[r,g,b]` when
`k = 3` and `[r,g,b,a]` when `k = 4`; a 2x2 fill with `k = 4` is 16 bytes,
every 4-byte group `[r,g,b,a]`. -/
theorem fillPixelBuffer_spec (buffer : List Nat) (c : Color) (res : Resolution)
    (hres : res.WF) :
    (STBImageWriter.fillPixelBuffer buffer c res 3).length = res.width * res.height * 3
    ∧ (∀ i, i < res.width * res.height →
        ((STBImageWriter.fillPixelBuffer buffer c res 3).drop (i * 3)).take 3
          = [c.red, c.green, c.blue])
    ∧ (STBImageWriter.fillPixelBuffer buffer c res 4).length = res.width * res.height * 4
    ∧ (∀ i, i < res.width * res.height →
        ((STBImageWriter.fillPixelBuffer buffer c res 4).drop (i * 4)).take 4
          = [c.red, c.green, c.blue, c.alpha])
    ∧ STBImageWriter.fillPixelBuffer buffer c ⟨2, 2⟩ 4
        = [c.red, c.green, c.blue, c.alpha, c.red, c.green, c.blue, c.alpha,
           c.red, c.green, c.blue, c.alpha, c.red, c.green, c.blue, c.alpha] := by
  rw [fillPixelBuffer_three buffer c res hres, fillPixelBuffer_four buffer c res hres,
    fillPixelBuffer_four buffer c ⟨2, 2⟩ (by decide)]
  refine ⟨length_flatten_replicate _ _, ?_, length_flatten_replicate _ _, ?_, rfl⟩
  · intro i hi
    exact group_flatten_replicate _ i [c.red, c.green, c.blue] hi
  · intro i hi
    exact group_flatten_replicate _ i [c.red, c.green, c.blue, c.alpha] hi

/-- A 2x3 fill of the colour (10, 20, 30, 40) over an empty buffer. -/
theorem fillPixelBuffer_spec_witness :
    (Resolution.mk 2 3).WF
    ∧ (STBImageWriter.fillPixelBuffer [] ⟨10, 20, 30, 40⟩ ⟨2, 3⟩ 3).length = 2 * 3 * 3
    ∧ (∀ i, i < 2 * 3 →
        ((STBImageWriter.fillPixelBuffer [] ⟨10, 20, 30, 40⟩ ⟨2, 3⟩ 3).drop (i * 3)).take 3
          = [10, 20, 30])
    ∧ (STBImageWriter.fillPixelBuffer [] ⟨10, 20, 30, 40⟩ ⟨2, 3⟩ 4).length = 2 * 3 * 4
    ∧ (∀ i, i < 2 * 3 →
        ((STBImageWriter.fillPixelBuffer [] ⟨10, 20, 30, 40⟩ ⟨2, 3⟩ 4).drop (i * 4)).take 4
          = [10, 20, 30, 40])
    ∧ STBImageWriter.fillPixelBuffer [] ⟨10, 20, 30, 40⟩ ⟨2, 2⟩ 4
        = [10, 20, 30, 40, 10, 20, 30, 40, 10, 20, 30, 40, 10, 20, 30, 40] :=
  ⟨by decide, fillPixelBuffer_spec [] ⟨10, 20, 30, 40⟩ ⟨2, 3⟩ (by decide)⟩

/-- C8: the channel count chosen by `STBImageWriter::write` is 3 when the
format is JPEG or the colour's alpha is 255, and 4 otherwise; it is never any
value other than 3 or 4. -/
theorem writeCall_comp (self : STBImageWriter) (filename : CppString) (c : Color)
    (res : Resolution) :
    (self.writeCall filename c res).comp
        = (if self.format_ = .JPEG ∨ c.alpha = 255 then 3 else 4)
    ∧ ((self.writeCall filename c res).comp = 3 ∨ (self.writeCall filename c res).comp = 4) := by
  obtain ⟨fmt, q⟩ := self
  cases fmt <;> by_cases ha : c.alpha = 255 <;>
    simp [STBImageWriter.writeCall, StbCall.comp, Color.isOpaque, ha]

/-- C9: for the JPEG format the encoder call built by `write` does not depend
on alpha: two colours that agree on red, green and blue give, at every valid
resolution, the same 3-channel buffer, `w*h` repetitions of `[r,g,b]`, hence
the same call and the same outcome of `write`; and `write` succeeds for every
colour, opaque or not, whenever the encoder reports success. -/
theorem write_jpeg_ignores_alpha (stbi : StbCall → Int) (self : STBImageWriter)
    (filename : CppString) (c1 c2 : Color) (res : Resolution)
    (hjpeg : self.format_ = .JPEG) (hres : res.WF)
    (hr : c1.red = c2.red) (hg : c1.green = c2.green) (hb : c1.blue = c2.blue) :
    (self.writeCall filename c1 res).comp = 3
    ∧ (self.writeCall filename c1 res).data
        = (List.replicate (res.width * res.height) [c1.red, c1.green, c1.blue]).flatten
    ∧ (self.writeCall filename c1 res).data = (self.writeCall filename c2 res).data
    ∧ self.writeCall filename c1 res = self.writeCall filename c2 res
    ∧ self.write stbi filename c1 res = self.write stbi filename c2 res
    ∧ (stbi (self.writeCall filename c1 res) ≠ 0 →
        self.write stbi filename c1 res = .ok true) := by
  obtain ⟨fmt, q⟩ := self
  simp only at hjpeg
  subst hjpeg
  have e1 : STBImageWriter.writeCall ⟨.JPEG, q⟩ filename c1 res
      = .stbi_write_jpg filename (toInt32 res.width) (toInt32 res.height) 3
          (List.replicate (res.width * res.height) [c1.red, c1.green, c1.blue]).flatten q := by
    simp [STBImageWriter.writeCall, fillPixelBuffer_three [] c1 res hres, Resolution.getWidth,
      Resolution.getHeight]
  have e2 : STBImageWriter.writeCall ⟨.JPEG, q⟩ filename c2 res
      = .stbi_write_jpg filename (toInt32 res.width) (toInt32 res.height) 3
          (List.replicate (res.width * res.height) [c1.red, c1.green, c1.blue]).flatten q := by
    simp [STBImageWriter.writeCall, fillPixelBuffer_three [] c2 res hres, Resolution.getWidth,
      Resolution.getHeight, hr, hg, hb]
  refine ⟨?_, ?_, ?_, ?_, ?_, ?_⟩
  · rw [e1]; rfl
  · rw [e1]; rfl
  · rw [e1, e2]
  · rw [e1, e2]
  · unfold STBImageWriter.write
    rw [e1, e2]
  · intro hok
    unfold STBImageWriter.write
    simp only [hok, if_false]

/-- The JPEG writer on (1, 2, 3) with alpha 255 and with alpha 64 at 2x1, with
an encoder that always reports success. -/
theorem write_jpeg_ignores_alpha_witness :
    (STBImageWriter.new .JPEG).format_ = .JPEG ∧ (Resolution.mk 2 1).WF
    ∧ ((STBImageWriter.new .JPEG).writeCall (str "a.jpg") ⟨1, 2, 3, 255⟩ ⟨2, 1⟩).comp = 3
    ∧ ((STBImageWriter.new .JPEG).writeCall (str "a.jpg") ⟨1, 2, 3, 255⟩ ⟨2, 1⟩).data
        = [1, 2, 3, 1, 2, 3]
    ∧ ((STBImageWriter.new .JPEG).writeCall (str "a.jpg") ⟨1, 2, 3, 255⟩ ⟨2, 1⟩).data
        = ((STBImageWriter.new .JPEG).writeCall (str "a.jpg") ⟨1, 2, 3, 64⟩ ⟨2, 1⟩).data
    ∧ (STBImageWriter.new .JPEG).writeCall (str "a.jpg") ⟨1, 2, 3, 255⟩ ⟨2, 1⟩
        = (STBImageWriter.new .JPEG).writeCall (str "a.jpg") ⟨1, 2, 3, 64⟩ ⟨2, 1⟩
    ∧ (STBImageWriter.new .JPEG).write (fun _ => 1) (str "a.jpg") ⟨1, 2, 3, 255⟩ ⟨2, 1⟩
        = (STBImageWriter.new .JPEG).write (fun _ => 1) (str "a.jpg") ⟨1, 2, 3, 64⟩ ⟨2, 1⟩
    ∧ ((fun _ => 1 : StbCall → Int)
          ((STBImageWriter.new .JPEG).writeCall (str "a.jpg") ⟨1, 2, 3, 255⟩ ⟨2, 1⟩) ≠ 0 →
        (STBImageWriter.new .JPEG).write (fun _ => 1) (str "a.jpg") ⟨1, 2, 3, 255⟩ ⟨2, 1⟩
          = .ok true) :=
  ⟨rfl, by decide,
    write_jpeg_ignores_alpha (fun _ => 1) (STBImageWriter.new .JPEG) (str "a.jpg")
      ⟨1, 2, 3, 255⟩ ⟨1, 2, 3, 64⟩ ⟨2, 1⟩ rfl (by decide) rfl rfl rfl⟩

/-! ## Lemmas: the extension map -/

theorem getFormatFromExtension_eq (x : CppString) :
    ImageWriter.getFormatFromExtension x
      = match ImageWriter.find ImageWriter.extensionMap_ (x.map tolower) with
        | some format => .ok format
        | none => .error (.invalid_argument (str "Unrecognized file extension: " ++ x)) :=
  rfl

theorem getFormatFromExtension_png (e : CppString) :
    ImageWriter.getFormatFromExtension e = .ok .PNG
      ↔ e.map tolower = str "png" ∨ e.map tolower = str ".png" := by
  rw [getFormatFromExtension_eq]
  simp only [ImageWriter.extensionMap_, ImageWriter.find]
  split_ifs with h1 h2 h3 h4 h5 h6 h7 h8 <;> simp_all

theorem getFormatFromExtension_jpeg (e : CppString) :
    ImageWriter.getFormatFromExtension e = .ok .JPEG
      ↔ e.map tolower = str "jpg" ∨ e.map tolower = str ".jpg"
        ∨ e.map tolower = str "jpeg" ∨ e.map tolower = str ".jpeg" := by
  rw [getFormatFromExtension_eq]
  simp only [ImageWriter.extensionMap_, ImageWriter.find]
  split_ifs with h1 h2 h3 h4 h5 h6 h7 h8 <;> simp_all <;> decide

theorem getFormatFromExtension_bmp (e : CppString) :
    ImageWriter.getFormatFromExtension e = .ok .BMP
      ↔ e.map tolower = str "bmp" ∨ e.map tolower = str ".bmp" := by
  rw [getFormatFromExtension_eq]
  simp only [ImageWriter.extensionMap_, ImageWriter.find]
  split_ifs with h1 h2 h3 h4 h5 h6 h7 h8 <;> simp_all <;> decide

theorem getFormatFromExtension_fails (e : CppString) :
    failedInvalidArgument (ImageWriter.getFormatFromExtension e) = true
      ↔ e.map tolower ∉ [str "png", str ".png", str "jpg", str ".jpg", str "jpeg",
          str ".jpeg", str "bmp", str ".bmp"] := by
  rw [getFormatFromExtension_eq]
  simp only [ImageWriter.extensionMap_, ImageWriter.find]
  split_ifs with h1 h2 h3 h4 h5 h6 h7 h8 <;>
    simp_all [failedInvalidArgument, Exn.isInvalidArgument]

/-! ## Theorems: `ImageWriter::getFormatFromExtension` -/

/-- C10: `getFormatFromExtension(e)` depends only on `lowercase(e)`: it gives
PNG when `lowercase(e)` is `"png"` or `".png"`, JPEG when it is `"jpg"`,
`".jpg"`, `"jpeg"` or `".jpeg"`, BMP when it is `"bmp"` or `".bmp"`, and
throws `std::invalid_argument` for every other string; `".PNG"` and `"png"`
give PNG and `".tiff"` fails. -/
theorem getFormatFromExtension_spec (e : CppString) :
    (ImageWriter.getFormatFromExtension e = .ok .PNG
      ↔ e.map tolower = str "png" ∨ e.map tolower = str ".png")
    ∧ (ImageWriter.getFormatFromExtension e = .ok .JPEG
      ↔ e.map tolower = str "jpg" ∨ e.map tolower = str ".jpg"
        ∨ e.map tolower = str "jpeg" ∨ e.map tolower = str ".jpeg")
    ∧ (ImageWriter.getFormatFromExtension e = .ok .BMP
      ↔ e.map tolower = str "bmp" ∨ e.map tolower = str ".bmp")
    ∧ (failedInvalidArgument (ImageWriter.getFormatFromExtension e) = true
      ↔ e.map tolower ∉ [str "png", str ".png", str "jpg", str ".jpg", str "jpeg",
          str ".jpeg", str "bmp", str ".bmp"])
    ∧ (failed (ImageWriter.getFormatFromExtension e)
        = failedInvalidArgument (ImageWriter.getFormatFromExtension e))
    ∧ (∀ e2 : CppString, e2.map tolower = e.map tolower →
        (∀ f, ImageWriter.getFormatFromExtension e2 = .ok f
          ↔ ImageWriter.getFormatFromExtension e = .ok f)
        ∧ failed (ImageWriter.getFormatFromExtension e2)
          = failed (ImageWriter.getFormatFromExtension e))
    ∧ ImageWriter.getFormatFromExtension (str ".PNG") = .ok .PNG
    ∧ ImageWriter.getFormatFromExtension (str "png") = .ok .PNG
    ∧ failedInvalidArgument (ImageWriter.getFormatFromExtension (str ".tiff")) = true := by
  refine ⟨getFormatFromExtension_png e, getFormatFromExtension_jpeg e,
    getFormatFromExtension_bmp e, getFormatFromExtension_fails e, ?_, ?_,
    by decide, by decide, by decide⟩
  · rw [getFormatFromExtension_eq]
    cases ImageWriter.find ImageWriter.extensionMap_ (e.map tolower) <;> rfl
  · intro e2 h2
    rw [getFormatFromExtension_eq, getFormatFromExtension_eq, h2]
    cases ImageWriter.find ImageWriter.extensionMap_ (e.map tolower) <;> simp [failed]

/-! ## Theorems: JPEG quality -/

/-- C11: for every integer `q`, the quality stored by the `STBImageWriter`
constructor and by `setJPEGQuality(q)` is `max(0, min(100, q))`: 0 when
`q < 0`, 100 when `q > 100`, `q` itself otherwise; the stored quality is
always in `[0,100]` and clamping is idempotent. -/
theorem jpegQuality_clamped (format : STBImageWriter.Format) (self : STBImageWriter)
    (q : Int) :
    (STBImageWriter.new format q).getJPEGQuality = max 0 (min 100 q)
    ∧ (self.setJPEGQuality q).getJPEGQuality = max 0 (min 100 q)
    ∧ (q < 0 → (self.setJPEGQuality q).getJPEGQuality = 0)
    ∧ (100 < q → (self.setJPEGQuality q).getJPEGQuality = 100)
    ∧ (0 ≤ q ∧ q ≤ 100 → (self.setJPEGQuality q).getJPEGQuality = q)
    ∧ (0 ≤ (STBImageWriter.new format q).getJPEGQuality
        ∧ (STBImageWriter.new format q).getJPEGQuality ≤ 100)
    ∧ (0 ≤ (self.setJPEGQuality q).getJPEGQuality
        ∧ (self.setJPEGQuality q).getJPEGQuality ≤ 100)
    ∧ STBImageWriter.validateQuality (STBImageWriter.validateQuality q)
        = STBImageWriter.validateQuality q
    ∧ ((self.setJPEGQuality q).setJPEGQuality ((self.setJPEGQuality q).getJPEGQuality)
        = self.setJPEGQuality q) := by
  have hv : STBImageWriter.validateQuality q = max 0 (min 100 q) := by
    unfold STBImageWriter.validateQuality
    split_ifs <;> omega
  have hi : STBImageWriter.validateQuality (max 0 (min 100 q)) = max 0 (min 100 q) := by
    unfold STBImageWriter.validateQuality
    split_ifs <;> omega
  simp only [STBImageWriter.new, STBImageWriter.setJPEGQuality, STBImageWriter.getJPEGQuality,
    hv, hi]
  refine ⟨trivial, trivial, ?_, ?_, ?_, ?_, ?_, trivial, trivial⟩
  · intro h; omega
  · intro h; omega
  · intro h; omega
  · omega
  · omega

/-! ## Lemmas: screen detection and presets -/

theorem ofDimensions_of_valid (w h : Nat) (hv : Resolution.isValid w h = true) :
    Resolution.ofDimensions w h = .ok ⟨w, h⟩ := by
  unfold Resolution.ofDimensions
  simp [hv]

theorem detectScreenResolution_some (w h : Nat) :
    Resolution.detectScreenResolution (some (w, h))
      = if Resolution.isValid w h = true then .ok ⟨w, h⟩
        else .error (.runtime_error (str "Failed to detect screen resolution")) := by
  unfold Resolution.detectScreenResolution
  by_cases hv : Resolution.isValid w h = true
  · simp only [hv, if_true, ofDimensions_of_valid w h hv]
  · simp only [hv, if_false]
    rfl

theorem detectedOrFullHD_some (w h : Nat) :
    detectedOrFullHD (some (w, h))
      = if Resolution.isValid w h = true then ⟨w, h⟩ else ⟨1920, 1080⟩ := by
  unfold detectedOrFullHD
  simp only [isValid_iff]

theorem new_eq (screen : Option (Nat × Nat)) :
    Resolution.new screen = detectedOrFullHD screen := by
  rcases screen with _ | ⟨w, h⟩
  · rfl
  · unfold Resolution.new
    rw [detectScreenResolution_some, detectedOrFullHD_some]
    by_cases hv : Resolution.isValid w h = true <;> simp [hv]

theorem autoDetect_eq (screen : Option (Nat × Nat)) :
    autoDetect screen = .ok (detectedOrFullHD screen) := by
  rcases screen with _ | ⟨w, h⟩
  · rfl
  · unfold autoDetect
    rw [detectScreenResolution_some, detectedOrFullHD_some]
    by_cases hv : Resolution.isValid w h = true
    · simp [hv]
    · simp only [hv, if_false]
      rfl

/-! ## Theorems: screen detection, presets and the range invariant -/

/-- C19: for every outcome of the platform screen query (failure, or success
with any pair of dimensions), neither the `Resolution` default constructor
nor the auto-detect step of `main` fails: the resulting resolution is the
queried `(w,h)` when the query succeeded with both dimensions in `[1,65535]`,
and 1920x1080 in every other case; in auto mode this is the resolution `main`
hands to `write`. -/
theorem detection_never_fails (screen : Option (Nat × Nat)) :
    Resolution.new screen = detectedOrFullHD screen
    ∧ autoDetect screen = .ok (detectedOrFullHD screen)
    ∧ detectedOrFullHD none = ⟨1920, 1080⟩
    ∧ (∀ w h, (1 ≤ w ∧ w ≤ 65535) ∧ (1 ≤ h ∧ h ≤ 65535) →
        detectedOrFullHD (some (w, h)) = ⟨w, h⟩)
    ∧ (∀ w h, ¬ ((1 ≤ w ∧ w ≤ 65535) ∧ (1 ≤ h ∧ h ≤ 65535)) →
        detectedOrFullHD (some (w, h)) = ⟨1920, 1080⟩)
    ∧ (∀ o j, o.useAutoResolution = true → prepareJob screen o = .ok (.job j) →
        j.resolution = detectedOrFullHD screen) := by
  refine ⟨new_eq screen, autoDetect_eq screen, rfl, ?_, ?_, ?_⟩
  · intro w h hv
    simp only [detectedOrFullHD, hv, and_self, if_true]
  · intro w h hv
    simp only [detectedOrFullHD, hv, if_false]
  · intro o j hauto hjob
    unfold prepareJob at hjob
    rw [hauto, autoDetect_eq] at hjob
    by_cases hout : o.outputFile.isEmpty = true
    · simp [hout] at hjob
    · simp only [hout] at hjob
      rcases hc : Color.ofHex o.colorStr with e | c
      · rw [hc] at hjob; simp [bind, Except.bind] at hjob
      · rcases he : determineExtension o.formatStr o.outputFile with e | ext
        · rw [hc, he] at hjob; simp [bind, Except.bind] at hjob
        · rcases hw : ImageWriter.createWriterFromExtension ext with e | wr
          · rw [hc, he] at hjob; simp [bind, Except.bind, hw] at hjob
          · rw [hc, he] at hjob
            simp [bind, Except.bind, hw] at hjob
            rw [← hjob]

/-- C20: every `Resolution` the program can obtain, from the `(w,h)`
constructor, from the presets HD (1280x720), FullHD (1920x1080), QHD
(2560x1440), UHD4K (3840x2160), from `detectScreenResolution` for any platform
result, or from the default constructor, satisfies `1 <= width <= 65535` and
`1 <= height <= 65535`; the presets construct without failure and have
exactly the stated dimensions. -/
theorem resolution_in_range (screen : Option (Nat × Nat)) :
    (∀ w h r, Resolution.ofDimensions w h = .ok r →
        (1 ≤ r.width ∧ r.width ≤ 65535) ∧ (1 ≤ r.height ∧ r.height ≤ 65535))
    ∧ Resolution.HD = .ok ⟨1280, 720⟩
    ∧ Resolution.FullHD = .ok ⟨1920, 1080⟩
    ∧ Resolution.QHD = .ok ⟨2560, 1440⟩
    ∧ Resolution.UHD4K = .ok ⟨3840, 2160⟩
    ∧ (∀ r, r ∈ [Resolution.mk 1280 720, ⟨1920, 1080⟩, ⟨2560, 1440⟩, ⟨3840, 2160⟩] →
        (1 ≤ r.width ∧ r.width ≤ 65535) ∧ (1 ≤ r.height ∧ r.height ≤ 65535))
    ∧ (∀ r, Resolution.detectScreenResolution screen = .ok r →
        (1 ≤ r.width ∧ r.width ≤ 65535) ∧ (1 ≤ r.height ∧ r.height ≤ 65535))
    ∧ ((1 ≤ (Resolution.new screen).width ∧ (Resolution.new screen).width ≤ 65535)
        ∧ (1 ≤ (Resolution.new screen).height ∧ (Resolution.new screen).height ≤ 65535)) := by
  have hof : ∀ w h r, Resolution.ofDimensions w h = .ok r →
      (1 ≤ r.width ∧ r.width ≤ 65535) ∧ (1 ≤ r.height ∧ r.height ≤ 65535) := by
    intro w h r hr
    unfold Resolution.ofDimensions at hr
    by_cases hv : Resolution.isValid w h = true
    · simp only [hv, Bool.not_true, Bool.false_eq_true, if_false, Except.ok.injEq] at hr
      rw [← hr]
      exact (isValid_iff w h).mp hv
    · simp [hv] at hr
  have hdet : ∀ r, Resolution.detectScreenResolution screen = .ok r →
      (1 ≤ r.width ∧ r.width ≤ 65535) ∧ (1 ≤ r.height ∧ r.height ≤ 65535) := by
    intro r hr
    rcases screen with _ | ⟨w, h⟩
    · simp [Resolution.detectScreenResolution] at hr
    · rw [detectScreenResolution_some] at hr
      by_cases hv : Resolution.isValid w h = true
      · simp only [hv, if_true, Except.ok.injEq] at hr
        rw [← hr]
        exact (isValid_iff w h).mp hv
      · simp [hv] at hr
  refine ⟨hof, by decide, by decide, by decide, by decide, ?_, hdet, ?_⟩
  · intro r hr
    simp only [List.mem_cons, List.mem_singleton, List.not_mem_nil, or_false] at hr
    rcases hr with rfl | rfl | rfl | rfl <;> decide
  · rcases hd : Resolution.detectScreenResolution screen with e | r
    · have hn : Resolution.new screen = ⟨1920, 1080⟩ := by
        unfold Resolution.new
        rw [hd]
      rw [hn]
      decide
    · have hn : Resolution.new screen = r := by
        unfold Resolution.new
        rw [hd]
      rw [hn]
      exact hdet r hd

/-! ## Lemmas: decimal output -/

theorem decDigitsAux_fuel (f1 f2 n : Nat) (acc : CppString) (h1 : n < f1) (h2 : n < f2) :
    decDigitsAux f1 n acc = decDigitsAux f2 n acc := by
  induction f1 generalizing f2 n acc with
  | zero => omega
  | succ f1 ih =>
    cases f2 with
    | zero => omega
    | succ f2 =>
      simp only [decDigitsAux]
      split_ifs with h0
      · rfl
      · exact ih f2 (n / 10) _ (by omega) (by omega)

theorem decDigitsAux_acc (f n : Nat) (acc : CppString) (h : n < f) :
    decDigitsAux f n acc = decDigitsAux f n [] ++ acc := by
  induction f generalizing n acc with
  | zero => omega
  | succ f ih =>
    simp only [decDigitsAux]
    split_ifs with h0
    · rfl
    · rw [ih (n / 10) ((48 + n % 10) :: acc) (by omega), ih (n / 10) [48 + n % 10] (by omega),
        List.append_assoc]
      rfl

theorem formatDec_small (n : Nat) (h : n < 10) : formatDec n = [48 + n] := by
  unfold formatDec
  simp only [decDigitsAux, show n / 10 = 0 by omega, if_true, show n % 10 = n by omega]

theorem formatDec_step (n : Nat) (h : 10 ≤ n) :
    formatDec n = formatDec (n / 10) ++ [48 + n % 10] := by
  have e : formatDec n = decDigitsAux n (n / 10) [48 + n % 10] := by
    unfold formatDec
    simp only [decDigitsAux]
    rw [if_neg (by omega)]
  rw [e, decDigitsAux_acc n (n / 10) [48 + n % 10] (by omega),
    decDigitsAux_fuel n (n / 10 + 1) (n / 10) [] (by omega) (by omega)]
  rfl

theorem decimalValue_append (l : CppString) (c : Nat) :
    decimalValue (l ++ [c]) = 10 * decimalValue l + (c - 48) := by
  unfold decimalValue
  rw [List.foldl_append]
  rfl

/-- The printed digits of `n` are its decimal representation. -/
theorem isDecimalRepr_formatDec (n : Nat) : IsDecimalRepr (formatDec n) n := by
  induction n using Nat.strong_induction_on with
  | _ n ih =>
    by_cases h : n < 10
    · rw [formatDec_small n h]
      refine ⟨by simp, ?_, ?_, ?_⟩
      · intro c hc
        simp only [List.mem_singleton] at hc
        simp only [isDecimalDigit, hc, Bool.and_eq_true, decide_eq_true_eq]
        omega
      · simp [decimalValue]
      · intro hh
        simp only [List.head?_cons, Option.some.injEq] at hh
        have : n = 0 := by omega
        rw [this]
    · have h10 : 10 ≤ n := by omega
      obtain ⟨hne, hdig, hval, hhead⟩ := ih (n / 10) (by omega)
      rw [formatDec_step n h10]
      refine ⟨by simp, ?_, ?_, ?_⟩
      · intro c hc
        rw [List.mem_append, List.mem_singleton] at hc
        rcases hc with hc | hc
        · exact hdig c hc
        · simp only [isDecimalDigit, hc, Bool.and_eq_true, decide_eq_true_eq]
          omega
      · rw [decimalValue_append, hval]
        omega
      · intro hh
        exfalso
        rcases hl : formatDec (n / 10) with _ | ⟨c, t⟩
        · exact hne hl
        · rw [hl] at hh hhead hval
          simp only [List.cons_append, List.head?_cons, Option.some.injEq] at hh hhead
          have ht := hhead hh
          rw [ht] at hval
          simp [decimalValue] at hval
          omega

theorem digitChar_toNat (d : Nat) (h : d < 10) : (Nat.digitChar d).toNat = 48 + d := by
  interval_cases d <;> rfl

theorem toDigitsCore_map (fuel n : Nat) (ds : List Char) :
    (Nat.toDigitsCore 10 fuel n ds).map Char.toNat
      = decDigitsAux fuel n (ds.map Char.toNat) := by
  induction fuel generalizing n ds with
  | zero => rfl
  | succ fuel ih =>
    simp only [Nat.toDigitsCore, decDigitsAux]
    split_ifs with h0
    · rw [List.map_cons, digitChar_toNat _ (Nat.mod_lt _ (by norm_num))]
    · rw [ih, List.map_cons, digitChar_toNat _ (Nat.mod_lt _ (by norm_num))]

/-- The printed digits of `n` are those of the library's `Nat.repr`. -/
theorem formatDec_eq_repr (n : Nat) : formatDec n = str (Nat.repr n) := by
  unfold formatDec str Nat.repr Nat.toDigits
  rw [show (Nat.toDigitsCore 10 (n + 1) n []).asString.toList
    = Nat.toDigitsCore 10 (n + 1) n [] from rfl, toDigitsCore_map]
  rfl

/-! ## Lemmas: `Resolution::gcd` -/

theorem gcdLoop_eq (fuel a b : Nat) (h : b < fuel) :
    Resolution.gcdLoop fuel a b = Nat.gcd a b := by
  induction fuel generalizing a b with
  | zero => omega
  | succ fuel ih =>
    simp only [Resolution.gcdLoop]
    split_ifs with h0
    · have hlt : a % b < b := Nat.mod_lt _ (Nat.pos_of_ne_zero h0)
      rw [ih b (a % b) (by omega), Nat.gcd_comm a b, Nat.gcd_rec b a, Nat.gcd_comm]
    · have hb : b = 0 := by omega
      rw [hb, Nat.gcd_zero_right]

/-- The Euclidean loop finishes and computes the greatest common divisor. -/
theorem gcd_eq (a b : Nat) : Resolution.gcd a b = Nat.gcd a b :=
  gcdLoop_eq (b + 1) a b (by omega)

theorem head_formatDec_ne_zero (n : Nat) (h : 1 ≤ n) : (formatDec n).head? ≠ some 48 := by
  obtain ⟨_, _, hval, hhead⟩ := isDecimalRepr_formatDec n
  intro hh
  rw [hhead hh] at hval
  simp [decimalValue] at hval
  omega

/-! ## Theorems: `Resolution::getAspectRatio` and `Resolution::toString` -/

/-- C15: for every valid `Resolution` `(w,h)`, `getAspectRatio()` returns the
decimal text of `w/g`, a `':'` and the decimal text of `h/g`, where `g` is
what the Euclidean loop of `Resolution::gcd` computes, which is the greatest
common divisor of `w` and `h`; (1920,1080) gives `"16:9"`, (800,600) gives
`"4:3"` and every square resolution gives `"1:1"`. -/
theorem getAspectRatio_spec (r : Resolution) (hr : r.WF) :
    Resolution.gcd r.width r.height = Nat.gcd r.width r.height
    ∧ r.getAspectRatio
        = formatDec (r.width / Nat.gcd r.width r.height) ++ str ":"
          ++ formatDec (r.height / Nat.gcd r.width r.height)
    ∧ IsDecimalRepr (formatDec (r.width / Nat.gcd r.width r.height))
        (r.width / Nat.gcd r.width r.height)
    ∧ IsDecimalRepr (formatDec (r.height / Nat.gcd r.width r.height))
        (r.height / Nat.gcd r.width r.height)
    ∧ r.getAspectRatio
        = str (Nat.repr (r.width / Nat.gcd r.width r.height)) ++ str ":"
          ++ str (Nat.repr (r.height / Nat.gcd r.width r.height))
    ∧ (r.width = r.height → r.getAspectRatio = str "1:1")
    ∧ (Resolution.mk 1920 1080).getAspectRatio = str "16:9"
    ∧ (Resolution.mk 800 600).getAspectRatio = str "4:3"
    ∧ (Resolution.mk 100 100).getAspectRatio = str "1:1" := by
  have hv := (isValid_iff _ _).mp hr
  have hasp : r.getAspectRatio
      = formatDec (r.width / Nat.gcd r.width r.height) ++ str ":"
        ++ formatDec (r.height / Nat.gcd r.width r.height) := by
    unfold Resolution.getAspectRatio
    simp only [gcd_eq]
  refine ⟨gcd_eq _ _, hasp, isDecimalRepr_formatDec _, isDecimalRepr_formatDec _, ?_, ?_,
    by decide, by decide, by decide⟩
  · rw [hasp, formatDec_eq_repr, formatDec_eq_repr]
  · intro hsq
    rw [hasp, ← hsq, Nat.gcd_self, Nat.div_self (by omega)]
    rfl

/-- The resolution 1920x1080: the loop finds 120 and the ratio is `16:9`. -/
theorem getAspectRatio_spec_witness :
    (Resolution.mk 1920 1080).WF
    ∧ Resolution.gcd 1920 1080 = 120
    ∧ (Resolution.mk 1920 1080).getAspectRatio = str "16:9" :=
  ⟨by decide, (getAspectRatio_spec ⟨1920, 1080⟩ (by decide)).1,
    (getAspectRatio_spec ⟨1920, 1080⟩ (by decide)).2.2.2.2.2.2.1⟩

/-- C16: for every valid `Resolution`, the divisor `gcd(width, height)` used
by `getAspectRatio` is at least 1, so neither division is a division by zero,
and the two printed components are coprime. -/
theorem aspectRatio_divisor_pos (r : Resolution) (hr : r.WF) :
    1 ≤ Resolution.gcd r.width r.height
    ∧ Resolution.gcd r.width r.height ≠ 0
    ∧ Nat.Coprime (r.width / Resolution.gcd r.width r.height)
        (r.height / Resolution.gcd r.width r.height)
    ∧ ∃ p q, r.getAspectRatio = p ++ str ":" ++ q
        ∧ IsDecimalRepr p (decimalValue p) ∧ IsDecimalRepr q (decimalValue q)
        ∧ Nat.Coprime (decimalValue p) (decimalValue q) := by
  have hv := (isValid_iff _ _).mp hr
  have hpos : 0 < Nat.gcd r.width r.height := Nat.gcd_pos_of_pos_left _ (by omega)
  have hco := Nat.coprime_div_gcd_div_gcd hpos
  rw [gcd_eq]
  refine ⟨hpos, by omega, hco, formatDec (r.width / Nat.gcd r.width r.height),
    formatDec (r.height / Nat.gcd r.width r.height), ?_, ?_, ?_, ?_⟩
  · unfold Resolution.getAspectRatio
    simp only [gcd_eq]
  · rw [(isDecimalRepr_formatDec _).2.2.1]
    exact isDecimalRepr_formatDec _
  · rw [(isDecimalRepr_formatDec _).2.2.1]
    exact isDecimalRepr_formatDec _
  · rw [(isDecimalRepr_formatDec _).2.2.1, (isDecimalRepr_formatDec _).2.2.1]
    exact hco

/-- The resolution 800x600: the divisor is 200 and 4, 3 are coprime. -/
theorem aspectRatio_divisor_pos_witness :
    (Resolution.mk 800 600).WF
    ∧ 1 ≤ Resolution.gcd 800 600
    ∧ Resolution.gcd 800 600 ≠ 0
    ∧ Nat.Coprime (800 / Resolution.gcd 800 600) (600 / Resolution.gcd 800 600) :=
  ⟨by decide, (aspectRatio_divisor_pos ⟨800, 600⟩ (by decide)).1,
    (aspectRatio_divisor_pos ⟨800, 600⟩ (by decide)).2.1,
    (aspectRatio_divisor_pos ⟨800, 600⟩ (by decide)).2.2.1⟩

/-- C17: for every `(w,h)` with `1 <= w,h <= 65535`, `Resolution(w,h)` is
constructed and its `toString()` is the decimal representation of `w` (no
sign, no leading zeros), the character `'x'`, and the decimal representation
of `h`. -/
theorem toString_spec (w h : Nat) (hw : 1 ≤ w ∧ w ≤ 65535) (hh : 1 ≤ h ∧ h ≤ 65535) :
    Resolution.ofDimensions w h = .ok ⟨w, h⟩
    ∧ (Resolution.mk w h).toString = formatDec w ++ str "x" ++ formatDec h
    ∧ IsDecimalRepr (formatDec w) w
    ∧ IsDecimalRepr (formatDec h) h
    ∧ (formatDec w).head? ≠ some 48
    ∧ (formatDec h).head? ≠ some 48
    ∧ (Resolution.mk w h).toString = str (Nat.repr w) ++ str "x" ++ str (Nat.repr h) := by
  refine ⟨ofDimensions_of_valid w h ((isValid_iff w h).mpr ⟨hw, hh⟩), rfl,
    isDecimalRepr_formatDec w, isDecimalRepr_formatDec h, head_formatDec_ne_zero w hw.1,
    head_formatDec_ne_zero h hh.1, ?_⟩
  rw [← formatDec_eq_repr, ← formatDec_eq_repr]
  rfl

/-- The resolution 1920x1080 prints as `1920x1080`. -/
theorem toString_spec_witness :
    (1 ≤ 1920 ∧ 1920 ≤ 65535) ∧ (1 ≤ 1080 ∧ 1080 ≤ 65535)
    ∧ Resolution.ofDimensions 1920 1080 = .ok ⟨1920, 1080⟩
    ∧ (Resolution.mk 1920 1080).toString = str "1920x1080"
    ∧ IsDecimalRepr (str "1920") 1920
    ∧ IsDecimalRepr (str "1080") 1080
    ∧ (str "1920").head? ≠ some 48
    ∧ (str "1080").head? ≠ some 48
    ∧ (Resolution.mk 1920 1080).toString = str "1920" ++ str "x" ++ str "1080" :=
  ⟨by decide, by decide, toString_spec 1920 1080 (by decide) (by decide)⟩

/-! ## Theorems: the text of `Color::toHex` -/

/-- C18: for every `Color` `c` with 8-bit channels, `toHex(false)` is exactly
7 characters and `toHex(true)` exactly 9: a leading `'#'` followed by two hex
digits per channel in the order red, green, blue (then alpha only when
`includeAlpha` is true), each pair being the zero-padded value of the channel,
with every digit one of `0-9`, `A-F`. -/
theorem toHex_spec (c : Color) (h : c.WF) :
    (c.toHex false).length = 7
    ∧ (c.toHex true).length = 9
    ∧ ∃ r1 r2 g1 g2 b1 b2 a1 a2 : Nat,
        c.toHex false = [35, r1, r2, g1, g2, b1, b2]
        ∧ c.toHex true = [35, r1, r2, g1, g2, b1, b2, a1, a2]
        ∧ (∀ d ∈ [r1, r2, g1, g2, b1, b2, a1, a2], isUpperHexDigit d = true)
        ∧ 16 * hexValue r1 + hexValue r2 = c.red
        ∧ 16 * hexValue g1 + hexValue g2 = c.green
        ∧ 16 * hexValue b1 + hexValue b2 = c.blue
        ∧ 16 * hexValue a1 + hexValue a2 = c.alpha := by
  obtain ⟨r, g, b, a⟩ := c
  obtain ⟨hr, hg, hb, ha⟩ := h
  simp only at hr hg hb ha
  have hd : ∀ n : Nat, n < 256 → n / 16 < 16 := fun n hn => by omega
  have hm : ∀ n : Nat, n % 16 < 16 := fun n => by omega
  have hup : ∀ d : Nat, d < 16 → isUpperHexDigit (hexDigitChar d) = true := by
    intro d hd16
    simp only [isUpperHexDigit, hexDigitChar, Bool.or_eq_true, Bool.and_eq_true,
      decide_eq_true_eq]
    split_ifs <;> omega
  have hf : Color.toHex ⟨r, g, b, a⟩ false
      = [35, hexDigitChar (r / 16), hexDigitChar (r % 16), hexDigitChar (g / 16),
          hexDigitChar (g % 16), hexDigitChar (b / 16), hexDigitChar (b % 16)] := by
    simp only [Color.toHex, Bool.false_eq_true, if_false, setw_formatHex r hr,
      setw_formatHex g hg, setw_formatHex b hb]
    rfl
  have ht : Color.toHex ⟨r, g, b, a⟩ true
      = [35, hexDigitChar (r / 16), hexDigitChar (r % 16), hexDigitChar (g / 16),
          hexDigitChar (g % 16), hexDigitChar (b / 16), hexDigitChar (b % 16),
          hexDigitChar (a / 16), hexDigitChar (a % 16)] := by
    simp only [Color.toHex, if_true, setw_formatHex r hr, setw_formatHex g hg,
      setw_formatHex b hb, setw_formatHex a ha]
    rfl
  refine ⟨by rw [hf]; rfl, by rw [ht]; rfl, _, _, _, _, _, _, _, _, hf, ht, ?_, ?_, ?_, ?_, ?_⟩
  · intro d hmem
    simp only [List.mem_cons, List.mem_singleton, List.not_mem_nil, or_false] at hmem
    rcases hmem with e | e | e | e | e | e | e | e <;> rw [e]
    · exact hup _ (hd r hr)
    · exact hup _ (hm r)
    · exact hup _ (hd g hg)
    · exact hup _ (hm g)
    · exact hup _ (hd b hb)
    · exact hup _ (hm b)
    · exact hup _ (hd a ha)
    · exact hup _ (hm a)
  · rw [hexValue_hexDigitChar _ (hd r hr), hexValue_hexDigitChar _ (hm r)]
    exact Nat.div_add_mod r 16
  · rw [hexValue_hexDigitChar _ (hd g hg), hexValue_hexDigitChar _ (hm g)]
    exact Nat.div_add_mod g 16
  · rw [hexValue_hexDigitChar _ (hd b hb), hexValue_hexDigitChar _ (hm b)]
    exact Nat.div_add_mod b 16
  · rw [hexValue_hexDigitChar _ (hd a ha), hexValue_hexDigitChar _ (hm a)]
    exact Nat.div_add_mod a 16

/-- The colour (255, 5, 0, 171) prints as `#FF0500` and `#FF0500AB`. -/
theorem toHex_spec_witness :
    (Color.mk 255 5 0 171).WF
    ∧ (Color.mk 255 5 0 171).toHex false = str "#FF0500"
    ∧ (Color.mk 255 5 0 171).toHex true = str "#FF0500AB"
    ∧ ((Color.mk 255 5 0 171).toHex false).length = 7
    ∧ ((Color.mk 255 5 0 171).toHex true).length = 9 :=
  ⟨by decide, by decide, by decide, (toHex_spec ⟨255, 5, 0, 171⟩ (by decide)).1,
    (toHex_spec ⟨255, 5, 0, 171⟩ (by decide)).2.1⟩

/-! ## Theorems: the format and quality steps of `main` -/

/-- C12, evaluated on the code: `main` applies the requested quality only when
the extension is literally `.jpg` or `.jpeg`. With the output file `out.JPG`,
or with the format name `JPG`, a JPEG writer is created and encodes 3 channels
at the default quality 95 although quality 50 was requested; with the format
name `jpg` and quality 150 it encodes 3 channels at quality 100. -/
theorem main_jpeg_quality_case_sensitive :
    ImageWriter.createWriterFromExtension (str ".JPG") = .ok (STBImageWriter.new .JPEG 95)
    ∧ (∀ q : Int, applyQuality (str ".JPG") (STBImageWriter.new .JPEG 95) q
        = STBImageWriter.new .JPEG 95)
    ∧ main none none (fun _ => 1)
        [str "prog", str "-c", str "#00FF00", str "-o", str "out.JPG", str "-q", str "50",
          str "-r", str "2x1"]
        = ⟨0, some (.stbi_write_jpg (str "out.JPG") 2 1 3 [0, 255, 0, 0, 255, 0] 95)⟩
    ∧ main none none (fun _ => 1)
        [str "prog", str "-c", str "#00FF00", str "-o", str "out", str "-f", str "JPG",
          str "-q", str "50", str "-r", str "2x1"]
        = ⟨0, some (.stbi_write_jpg (str "out") 2 1 3 [0, 255, 0, 0, 255, 0] 95)⟩
    ∧ main none none (fun _ => 1)
        [str "prog", str "-c", str "#00FF00", str "-o", str "out", str "-f", str "jpg",
          str "-q", str "150", str "-r", str "2x1"]
        = ⟨0, some (.stbi_write_jpg (str "out") 2 1 3 [0, 255, 0, 0, 255, 0] 100)⟩ := by
  refine ⟨by decide, ?_, by decide, by decide, by decide⟩
  intro q
  unfold applyQuality
  rw [if_neg (by decide)]

/-- C13 as stated fails: given as the format name, the mapping key `.png`
becomes the extension `..png`, which is not recognized, while
`getFormatFromExtension(".png")` is PNG; and an empty format name is ignored,
so the output file decides, while `getFormatFromExtension("")` fails. -/
theorem format_name_dotted_key_fails :
    ImageWriter.getFormatFromExtension (str ".png") = .ok .PNG
    ∧ resolvedFormat (str ".png") (str "out.bmp")
        = .error (.invalid_argument (str "Unrecognized file extension: ..png"))
    ∧ ¬ (∀ f, resolvedFormat (str ".png") (str "out.bmp") = .ok f
          ↔ ImageWriter.getFormatFromExtension (str ".png") = .ok f)
    ∧ (main none none (fun _ => 1)
        [str "prog", str "-o", str "out.bmp", str "-f", str ".png", str "-r", str "1x1"])
        = ⟨1, none⟩
    ∧ resolvedFormat (str "") (str "out.bmp") = .ok .BMP
    ∧ failedInvalidArgument (ImageWriter.getFormatFromExtension (str "")) = true := by
  refine ⟨by decide, by decide, ?_, by decide, by decide, by decide⟩
  intro hall
  have h1 := (hall .PNG).mpr (by decide)
  exact absurd h1 (by decide)

/-- C14, evaluated on the code: `parseResolution("4294967297x1")` succeeds.
`std::stoul` returns 4294967297, which the conversion to `uint32_t` reduces to
1 before the range check, so the result is the resolution 1x1 and `main`
encodes a 1x1 image; 4294967296 is reduced to 0 and rejected. -/
theorem parseResolution_wide_value_accepted :
    stoul (str "4294967297") 10 = .ok 4294967297
    ∧ wrapUInt32 4294967297 = 1
    ∧ parseResolution (str "4294967297x1") = .ok ⟨1, 1⟩
    ∧ main none none (fun _ => 1)
        [str "prog", str "-c", str "#010203", str "-o", str "out.bmp", str "-r",
          str "4294967297x1"]
        = ⟨0, some (.stbi_write_bmp (str "out.bmp") 1 1 3 [1, 2, 3])⟩
    ∧ failedInvalidArgument (parseResolution (str "4294967296x1")) = true
    ∧ failedInvalidArgument (parseResolution (str "65536x1")) = true
    ∧ parseResolution (str "65535x1") = .ok ⟨65535, 1⟩ := by
  refine ⟨by decide, by decide, by decide, by decide, by decide, by decide, by decide⟩

/-! ## Lemmas: format names -/

theorem determineExtension_of_ne_nil (s out : CppString) (hne : s ≠ []) :
    determineExtension s out = .ok (str "." ++ s) := by
  unfold determineExtension
  cases s with
  | nil => exact absurd rfl hne
  | cons c t => rfl

theorem resolvedFormat_of_ne_nil (s out : CppString) (hne : s ≠ []) :
    resolvedFormat s out = ImageWriter.getFormatFromExtension (str "." ++ s) := by
  unfold resolvedFormat
  rw [determineExtension_of_ne_nil s out hne]
  rfl

theorem dotted_png (l : CppString) :
    (ImageWriter.getFormatFromExtension (str "." ++ l) = .ok .PNG)
      ↔ l.map tolower = str "png" := by
  rw [getFormatFromExtension_png]
  have e1 : (str "." ++ l).map tolower = 46 :: l.map tolower := rfl
  have e2 : str ".png" = 46 :: str "png" := by decide
  have e3 : str "png" = [112, 110, 103] := by decide
  rw [e1, e2, e3]
  simp

theorem dotted_jpeg (l : CppString) :
    (ImageWriter.getFormatFromExtension (str "." ++ l) = .ok .JPEG)
      ↔ l.map tolower = str "jpg" ∨ l.map tolower = str "jpeg" := by
  rw [getFormatFromExtension_jpeg]
  have e1 : (str "." ++ l).map tolower = 46 :: l.map tolower := rfl
  have e2 : str ".jpg" = 46 :: str "jpg" := by decide
  have e3 : str "jpg" = [106, 112, 103] := by decide
  have e4 : str ".jpeg" = 46 :: str "jpeg" := by decide
  have e5 : str "jpeg" = [106, 112, 101, 103] := by decide
  rw [e1, e2, e4, e3, e5]
  simp

theorem dotted_bmp (l : CppString) :
    (ImageWriter.getFormatFromExtension (str "." ++ l) = .ok .BMP)
      ↔ l.map tolower = str "bmp" := by
  rw [getFormatFromExtension_bmp]
  have e1 : (str "." ++ l).map tolower = 46 :: l.map tolower := rfl
  have e2 : str ".bmp" = 46 :: str "bmp" := by decide
  have e3 : str "bmp" = [98, 109, 112] := by decide
  rw [e1, e2, e3]
  simp

theorem failedInvalidArgument_iff_no_format (e : CppString) :
    failedInvalidArgument (ImageWriter.getFormatFromExtension e) = true
      ↔ ∀ f, ImageWriter.getFormatFromExtension e ≠ .ok f := by
  rw [getFormatFromExtension_eq]
  cases ImageWriter.find ImageWriter.extensionMap_ (e.map tolower) <;>
    simp [failedInvalidArgument, Exn.isInvalidArgument]

theorem dotted_key_not_resolved (s : CppString)
    (hd : s.map tolower ∈ [str ".png", str ".jpg", str ".jpeg", str ".bmp"]) :
    failedInvalidArgument (ImageWriter.getFormatFromExtension (str "." ++ s)) = true := by
  rw [failedInvalidArgument_iff_no_format]
  simp only [List.mem_cons, List.mem_singleton, List.not_mem_nil, or_false] at hd
  intro f hf
  cases f with
  | PNG =>
    have h := (dotted_png s).mp hf
    rcases hd with e | e | e | e <;> rw [e] at h <;> exact absurd h (by decide)
  | JPEG =>
    have h := (dotted_jpeg s).mp hf
    rcases hd with e | e | e | e <;> rw [e] at h <;> exact absurd h (by decide)
  | BMP =>
    have h := (dotted_bmp s).mp hf
    rcases hd with e | e | e | e <;> rw [e] at h <;> exact absurd h (by decide)

theorem dotted_key_is_extension (s : CppString)
    (hd : s.map tolower ∈ [str ".png", str ".jpg", str ".jpeg", str ".bmp"]) :
    ∃ f, ImageWriter.getFormatFromExtension s = .ok f := by
  simp only [List.mem_cons, List.mem_singleton, List.not_mem_nil, or_false] at hd
  rcases hd with e | e | e | e
  · exact ⟨.PNG, (getFormatFromExtension_png s).mpr (Or.inr e)⟩
  · exact ⟨.JPEG, (getFormatFromExtension_jpeg s).mpr (Or.inr (Or.inl e))⟩
  · exact ⟨.JPEG, (getFormatFromExtension_jpeg s).mpr (Or.inr (Or.inr (Or.inr e)))⟩
  · exact ⟨.BMP, (getFormatFromExtension_bmp s).mpr (Or.inr e)⟩

theorem undotted_agrees (s : CppString)
    (hnd : s.map tolower ∉ [str ".png", str ".jpg", str ".jpeg", str ".bmp"])
    (f : FormatType) :
    ImageWriter.getFormatFromExtension (str "." ++ s) = .ok f
      ↔ ImageWriter.getFormatFromExtension s = .ok f := by
  simp only [List.mem_cons, List.mem_singleton, List.not_mem_nil, or_false, not_or] at hnd
  obtain ⟨n1, n2, n3, n4⟩ := hnd
  cases f with
  | PNG =>
    rw [dotted_png, getFormatFromExtension_png]
    exact ⟨Or.inl, fun h => h.resolve_right n1⟩
  | JPEG =>
    rw [dotted_jpeg, getFormatFromExtension_jpeg]
    constructor
    · rintro (h | h)
      · exact Or.inl h
      · exact Or.inr (Or.inr (Or.inl h))
    · rintro (h | h | h | h)
      · exact Or.inl h
      · exact absurd h n2
      · exact Or.inr h
      · exact absurd h n3
  | BMP =>
    rw [dotted_bmp, getFormatFromExtension_bmp]
    exact ⟨Or.inl, fun h => h.resolve_right n4⟩

/-- C13, amended: for every non-empty format name `s`, `main` resolves the
format of the extension `"." + s`. That is the outcome of
`getFormatFromExtension(s)`, the same format or a failure with
`std::invalid_argument`, whenever `lowercase(s)` is not one of the dotted keys
`".png"`, `".jpg"`, `".jpeg"`, `".bmp"`; a dotted key given as the format name
is not recognized, though it is as an extension. -/
theorem format_name_resolution (s out : CppString) (hne : s ≠ []) :
    determineExtension s out = .ok (str "." ++ s)
    ∧ resolvedFormat s out = ImageWriter.getFormatFromExtension (str "." ++ s)
    ∧ (s.map tolower ∉ [str ".png", str ".jpg", str ".jpeg", str ".bmp"] →
        (∀ f, resolvedFormat s out = .ok f ↔ ImageWriter.getFormatFromExtension s = .ok f)
        ∧ failedInvalidArgument (resolvedFormat s out)
            = failedInvalidArgument (ImageWriter.getFormatFromExtension s))
    ∧ (s.map tolower ∈ [str ".png", str ".jpg", str ".jpeg", str ".bmp"] →
        failedInvalidArgument (resolvedFormat s out) = true
        ∧ ∃ f, ImageWriter.getFormatFromExtension s = .ok f) := by
  rw [resolvedFormat_of_ne_nil s out hne]
  refine ⟨determineExtension_of_ne_nil s out hne, rfl, ?_, ?_⟩
  · intro hnd
    refine ⟨undotted_agrees s hnd, ?_⟩
    rw [Bool.eq_iff_iff, failedInvalidArgument_iff_no_format,
      failedInvalidArgument_iff_no_format]
    constructor
    · intro h f hf
      exact h f ((undotted_agrees s hnd f).mpr hf)
    · intro h f hf
      exact h f ((undotted_agrees s hnd f).mp hf)
  · intro hd
    exact ⟨dotted_key_not_resolved s hd, dotted_key_is_extension s hd⟩

/-- The format name `JPG` with the output file `a.png`: the extension is
`.JPG` and the format is JPEG, as for `getFormatFromExtension("JPG")`. -/
theorem format_name_resolution_witness :
    str "JPG" ≠ []
    ∧ determineExtension (str "JPG") (str "a.png") = .ok (str ".JPG")
    ∧ resolvedFormat (str "JPG") (str "a.png") = .ok .JPEG
    ∧ ImageWriter.getFormatFromExtension (str "JPG") = .ok .JPEG :=
  ⟨by decide, (format_name_resolution (str "JPG") (str "a.png") (by decide)).1,
    (format_name_resolution (str "JPG") (str "a.png") (by decide)).2.1.trans (by decide),
    by decide⟩

/-! ## Lemmas: `std::stoul` and `parseResolution` on decimal digits -/

theorem isDecimalDigit_iff (c : Nat) : isDecimalDigit c = true ↔ 48 ≤ c ∧ c ≤ 57 := by
  simp [isDecimalDigit]

theorem digitValue_decimal (c : Nat) (h : isDecimalDigit c = true) :
    digitValue 10 c = some (c - 48) := by
  rw [isDecimalDigit_iff] at h
  unfold digitValue
  simp [h, show c - 48 < 10 by omega]

theorem readDigits_decimal (s : CppString) (a : Nat)
    (hs : ∀ c ∈ s, isDecimalDigit c = true) :
    readDigits 10 s (some a) = some (s.foldl (fun acc c => 10 * acc + (c - 48)) a) := by
  induction s generalizing a with
  | nil => rfl
  | cons c t ih =>
    have hc := hs c (List.mem_cons_self c t)
    simp only [readDigits, digitValue_decimal c hc, Option.getD, List.foldl_cons]
    rw [ih _ (fun d hd => hs d (List.mem_cons_of_mem c hd)), Nat.mul_comm]

theorem readDigits_decimal_none (s : CppString) (hne : s ≠ [])
    (hs : ∀ c ∈ s, isDecimalDigit c = true) :
    readDigits 10 s none = some (decimalValue s) := by
  cases s with
  | nil => exact absurd rfl hne
  | cons c t =>
    have hc := hs c (List.mem_cons_self c t)
    simp only [readDigits, digitValue_decimal c hc, Option.getD, decimalValue, List.foldl_cons]
    rw [readDigits_decimal t _ (fun d hd => hs d (List.mem_cons_of_mem c hd)), Nat.mul_comm]

theorem skipHexPrefix_ten (s : CppString) : skipHexPrefix 10 s = s := by
  unfold skipHexPrefix
  split
  · simp
  · rfl

/-- On a non-empty string of decimal digits `std::stoul` returns the number
they denote, and throws `std::out_of_range` when it exceeds `ULONG_MAX`. -/
theorem stoul_decimal (s : CppString) (hne : s ≠ [])
    (hs : ∀ c ∈ s, isDecimalDigit c = true) :
    stoul s 10 = if ULONG_MAX < decimalValue s then .error (.out_of_range (str "stoul"))
      else .ok (decimalValue s) := by
  cases s with
  | nil => exact absurd rfl hne
  | cons c t =>
    have hc := (isDecimalDigit_iff c).mp (hs c (List.mem_cons_self c t))
    have hsp : isspace c = false := by
      simp [isspace]
      omega
    have hsign : readSign (c :: t) = (false, c :: t) := by
      unfold readSign
      split
      · rename_i heq; simp at heq; omega
      · rename_i heq; simp at heq; omega
      · rfl
    unfold stoul
    simp only [List.dropWhile, hsp, hsign, skipHexPrefix_ten,
      readDigits_decimal_none (c :: t) hne hs]
    rfl

theorem string_find_append (w h : CppString) (ch : Nat) (hw : ch ∉ w) :
    string_find (w ++ ch :: h) ch = some w.length := by
  induction w with
  | nil => simp [string_find]
  | cons c t ih =>
    have hc : c ≠ ch := fun e => hw (by rw [e]; exact List.mem_cons_self ch t)
    have ht : ch ∉ t := fun hm => hw (List.mem_cons_of_mem c hm)
    rw [List.cons_append]
    simp only [string_find, hc, if_false]
    rw [ih ht]
    rfl

/-- On `W + "x" + H` with decimal digit strings `W`, `H` the parser reads both
numbers with `std::stoul`, reduces them to `uint32_t` and hands them to the
`Resolution` constructor. -/
theorem parseResolution_decimal (w h : CppString) (hwne : w ≠ []) (hhne : h ≠ [])
    (hw : ∀ c ∈ w, isDecimalDigit c = true) (hh : ∀ c ∈ h, isDecimalDigit c = true)
    (bw : decimalValue w ≤ ULONG_MAX) (bh : decimalValue h ≤ ULONG_MAX) :
    parseResolution (w ++ str "x" ++ h)
      = Resolution.ofDimensions (decimalValue w % 4294967296) (decimalValue h % 4294967296) := by
  have hx : (120 : Nat) ∉ w := by
    intro hm
    have := (isDecimalDigit_iff 120).mp (hw 120 hm)
    omega
  have e : w ++ str "x" ++ h = w ++ 120 :: h := by
    rw [List.append_assoc]
    rfl
  unfold parseResolution
  rw [e, string_find_append w h 120 hx]
  have e1 : substr (w ++ 120 :: h) 0 w.length = w := by
    unfold substr
    rw [List.drop_zero, List.take_left]
  have e2 : substrFrom (w ++ 120 :: h) (w.length + 1) = h := by
    unfold substrFrom
    rw [← List.drop_drop, List.drop_left]
    rfl
  simp only [e1, e2, stoul_decimal w hwne hw, stoul_decimal h hhne hh,
    if_neg (Nat.not_lt.mpr bw), if_neg (Nat.not_lt.mpr bh)]
  rfl

/-- When both numbers fit in 32 bits the parser hands exactly them to the
`Resolution` constructor. -/
theorem parseResolution_decimal_small (w h : CppString) (hwne : w ≠ []) (hhne : h ≠ [])
    (hw : ∀ c ∈ w, isDecimalDigit c = true) (hh : ∀ c ∈ h, isDecimalDigit c = true)
    (bw : decimalValue w < 4294967296) (bh : decimalValue h < 4294967296) :
    parseResolution (w ++ str "x" ++ h)
      = Resolution.ofDimensions (decimalValue w) (decimalValue h) := by
  rw [parseResolution_decimal w h hwne hhne hw hh (by unfold ULONG_MAX; omega)
    (by unfold ULONG_MAX; omega), Nat.mod_eq_of_lt bw, Nat.mod_eq_of_lt bh]

theorem string_find_none (s : CppString) (ch : Nat) (hs : ch ∉ s) :
    string_find s ch = none := by
  induction s with
  | nil => rfl
  | cons c t ih =>
    have hc : c ≠ ch := fun e => hs (by rw [e]; exact List.mem_cons_self ch t)
    simp only [string_find, hc, if_false, ih (fun hm => hs (List.mem_cons_of_mem c hm))]
    rfl

/-- A string with neither `'x'` nor `'X'` is rejected. -/
theorem parseResolution_no_separator (s : CppString) (h1 : (120 : Nat) ∉ s)
    (h2 : (88 : Nat) ∉ s) :
    parseResolution s = .error (.invalid_argument
      (str "Invalid resolution format. Use WIDTHxHEIGHT (e.g., 1920x1080)")) := by
  unfold parseResolution
  rw [string_find_none s 120 h1, string_find_none s 88 h2]

/-! ## Theorems: sizes and the channel rule -/

/-- C21: for every valid `Resolution` `(w,h)`, `getPixelCount()`, computed in
64-bit unsigned arithmetic, equals the product `w*h` with no wraparound (at
most `65535*65535 = 4294836225`), and the buffer size `w*h*channels` for
channels in `{3,4}` is below `2^64`, so the size `fillPixelBuffer` computes in
a 64-bit `size_t` is the exact product, which is the length of the buffer. -/
theorem getPixelCount_exact (r : Resolution) (hr : r.WF) (buffer : List Nat) (c : Color) :
    r.getPixelCount = r.width * r.height
    ∧ r.width * r.height ≤ 4294836225
    ∧ (Resolution.mk 65535 65535).getPixelCount = 4294836225
    ∧ r.width * r.height * 3 < 18446744073709551616
    ∧ r.width * r.height * 4 < 18446744073709551616
    ∧ wrapSizeT (wrapSizeT (r.getWidth * r.getHeight) * toSizeT 3) = r.width * r.height * 3
    ∧ wrapSizeT (wrapSizeT (r.getWidth * r.getHeight) * toSizeT 4) = r.width * r.height * 4
    ∧ (STBImageWriter.fillPixelBuffer buffer c r 3).length = r.width * r.height * 3
    ∧ (STBImageWriter.fillPixelBuffer buffer c r 4).length = r.width * r.height * 4 := by
  have hN := pixelCount_le r hr
  refine ⟨?_, hN, by decide, by omega, by omega, ?_, ?_, ?_, ?_⟩
  · unfold Resolution.getPixelCount
    exact Nat.mod_eq_of_lt (by omega)
  · unfold Resolution.getWidth Resolution.getHeight
    rw [toSizeT_three, wrapSizeT_of_lt (r.width * r.height) (by omega),
      wrapSizeT_of_lt _ (by omega)]
  · unfold Resolution.getWidth Resolution.getHeight
    rw [toSizeT_four, wrapSizeT_of_lt (r.width * r.height) (by omega),
      wrapSizeT_of_lt _ (by omega)]
  · rw [fillPixelBuffer_three buffer c r hr, length_flatten_replicate]
    rfl
  · rw [fillPixelBuffer_four buffer c r hr, length_flatten_replicate]
    rfl

/-- The largest resolution, 65535x65535, filled into an empty buffer. -/
theorem getPixelCount_exact_witness :
    (Resolution.mk 65535 65535).WF
    ∧ (Resolution.mk 65535 65535).getPixelCount = 65535 * 65535
    ∧ 65535 * 65535 * 4 < 18446744073709551616 :=
  ⟨by decide, (getPixelCount_exact ⟨65535, 65535⟩ (by decide) [] ⟨0, 0, 0, 0⟩).1,
    (getPixelCount_exact ⟨65535, 65535⟩ (by decide) [] ⟨0, 0, 0, 0⟩).2.2.2.2.1⟩

/-- C22: the channel count chosen by `write` agrees with the descriptor-based
rule: for every format and every colour, `write` uses 4 channels if and only
if the writer's `supportsTransparency()` is true and `isOpaque()` is false,
and 3 otherwise; `supportsTransparency()` is true exactly for PNG and BMP. -/
theorem writeCall_comp_descriptor_rule (self : STBImageWriter) (filename : CppString)
    (c : Color) (res : Resolution) :
    ((self.writeCall filename c res).comp = 4
      ↔ self.supportsTransparency = true ∧ c.isOpaque = false)
    ∧ ((self.writeCall filename c res).comp = 3
      ↔ ¬ (self.supportsTransparency = true ∧ c.isOpaque = false))
    ∧ (self.supportsTransparency = true ↔ self.format_ = .PNG ∨ self.format_ = .BMP)
    ∧ (∀ f : FormatType, (ImageWriter.createWriter f).supportsTransparency = true
        ↔ f = .PNG ∨ f = .BMP) := by
  obtain ⟨fmt, q⟩ := self
  refine ⟨?_, ?_, ?_, ?_⟩
  · cases fmt <;> cases ho : c.isOpaque <;>
      simp [STBImageWriter.writeCall, StbCall.comp, STBImageWriter.supportsTransparency, ho]
  · cases fmt <;> cases ho : c.isOpaque <;>
      simp [STBImageWriter.writeCall, StbCall.comp, STBImageWriter.supportsTransparency, ho]
  · cases fmt <;> simp [STBImageWriter.supportsTransparency]
  · intro f
    cases f <;> simp [ImageWriter.createWriter, STBImageWriter.new,
      STBImageWriter.supportsTransparency]

/-! ## Lemmas: the buffer built by `write` -/

/-- The buffer `write` hands to the encoder, by format and alpha. -/
theorem writeCall_data (self : STBImageWriter) (filename : CppString) (c : Color)
    (res : Resolution) (hres : res.WF) :
    (self.writeCall filename c res).data
      = if (self.format_ = .PNG ∨ self.format_ = .BMP) ∧ c.alpha ≠ 255 then
          (List.replicate (res.width * res.height)
            [c.red, c.green, c.blue, c.alpha]).flatten
        else (List.replicate (res.width * res.height) [c.red, c.green, c.blue]).flatten := by
  obtain ⟨fmt, q⟩ := self
  cases fmt <;> by_cases ha : c.alpha = 255 <;>
    simp [STBImageWriter.writeCall, StbCall.data, Color.isOpaque, ha,
      fillPixelBuffer_three [] c res hres, fillPixelBuffer_four [] c res hres]

theorem createWriterFromExtension_of_format (ext : CppString) (f : FormatType)
    (hf : ImageWriter.getFormatFromExtension ext = .ok f) :
    ImageWriter.createWriterFromExtension ext = .ok (ImageWriter.createWriter f) := by
  unfold ImageWriter.createWriterFromExtension
  rw [hf]
  rfl

theorem applyQuality_format (ext : CppString) (wr : STBImageWriter) (q : Int) :
    (applyQuality ext wr q).format_ = wr.format_ := by
  unfold applyQuality
  split_ifs <;> rfl

theorem createWriter_format (f : FormatType) :
    ((ImageWriter.createWriter f).format_ = .PNG ↔ f = .PNG)
    ∧ ((ImageWriter.createWriter f).format_ = .JPEG ↔ f = .JPEG)
    ∧ ((ImageWriter.createWriter f).format_ = .BMP ↔ f = .BMP) := by
  cases f <;> simp [ImageWriter.createWriter, STBImageWriter.new]

theorem writeCall_data_createWriter (f : FormatType) (ext filename : CppString) (q : Int)
    (c : Color) (res : Resolution) (hres : res.WF) :
    ((applyQuality ext (ImageWriter.createWriter f) q).writeCall filename c res).data
      = solidPixels c f res := by
  rw [writeCall_data _ filename c res hres, applyQuality_format]
  unfold solidPixels
  cases f <;> simp [ImageWriter.createWriter, STBImageWriter.new]

/-! ## Theorems: end to end -/

/-- C23: end to end over `Color(hex)`, `createWriterFromExtension(ext)`, the
quality step of `main` and the buffer construction of `write`: for every hex
string that parses to a colour `(r,g,b,a)`, every extension that resolves to a
format `f` and every valid resolution `(w,h)`, the buffer handed to the
encoder is `w*h` repetitions of `[r,g,b,a]` when `f` is PNG or BMP and
`a != 255`, and `w*h` repetitions of `[r,g,b]` otherwise, also when `main`
runs these steps with the resolution given on the command line; `main` on
`#0000FF40` with `bmp` hands over 4-channel pixels (0,0,255,64), and on
`#FF5733` at 4x4 with `png` 16 pixels (255,87,51), the colour's alpha being
255. -/
theorem end_to_end_buffer (hex ext filename : CppString) (c : Color) (f : FormatType)
    (res : Resolution) (q : Int)
    (hc : Color.ofHex hex = .ok c) (hf : ImageWriter.getFormatFromExtension ext = .ok f)
    (hres : res.WF) :
    (Color.ofHex hex >>= fun color =>
      ImageWriter.createWriterFromExtension ext >>= fun wr =>
        pure ((applyQuality ext wr q).writeCall filename color res).data)
      = .ok (solidPixels c f res)
    ∧ (∀ (screen : Option (Nat × Nat)) (o : Options), o.colorStr = hex →
        o.outputFile = filename → filename ≠ [] → o.useAutoResolution = false →
        o.resolution = res → determineExtension o.formatStr filename = .ok ext →
        ∃ j, prepareJob screen o = .ok (.job j)
          ∧ (j.writer.writeCall j.outputFile j.color j.resolution).data = solidPixels c f res)
    ∧ Color.ofHex (str "#0000FF40") = .ok ⟨0, 0, 255, 64⟩
    ∧ main none none (fun _ => 1)
        [str "prog", str "-c", str "#0000FF40", str "-o", str "out", str "-f", str "bmp",
          str "-r", str "2x1"]
        = ⟨0, some (.stbi_write_bmp (str "out") 2 1 4 [0, 0, 255, 64, 0, 0, 255, 64])⟩
    ∧ Color.ofHex (str "#FF5733") = .ok ⟨255, 87, 51, 255⟩
    ∧ main none none (fun _ => 1)
        [str "prog", str "-c", str "#FF5733", str "-o", str "out", str "-f", str "png",
          str "-r", str "4x4"]
        = ⟨0, some (.stbi_write_png (str "out") 4 4 3
            (List.replicate 16 [255, 87, 51]).flatten 12)⟩ := by
  have hw := createWriterFromExtension_of_format ext f hf
  refine ⟨?_, ?_, by decide, by decide, by decide, by decide⟩
  · rw [hc, ok_bind, hw, ok_bind, writeCall_data_createWriter f ext filename q c res hres]
    rfl
  · intro screen o h1 h2 h3 h4 h5 h6
    have hempty : filename.isEmpty = false := by
      cases filename with
      | nil => exact absurd rfl h3
      | cons a t => rfl
    refine ⟨⟨applyQuality ext (ImageWriter.createWriter f) o.jpegQuality, filename, c, res⟩,
      ?_, writeCall_data_createWriter f ext filename _ c res hres⟩
    unfold prepareJob
    simp only [h2, hempty, Bool.false_eq_true, if_false, h1, hc, h4, h5, h6, ok_bind, hw]

/-- The colour `#0000FF40` with the extension `.bmp` at 2x1: two pixels
(0,0,255,64). -/
theorem end_to_end_buffer_witness :
    Color.ofHex (str "#0000FF40") = .ok ⟨0, 0, 255, 64⟩
    ∧ ImageWriter.getFormatFromExtension (str ".bmp") = .ok .BMP
    ∧ (Resolution.mk 2 1).WF
    ∧ solidPixels ⟨0, 0, 255, 64⟩ .BMP ⟨2, 1⟩ = [0, 0, 255, 64, 0, 0, 255, 64]
    ∧ (Color.ofHex (str "#0000FF40") >>= fun color =>
        ImageWriter.createWriterFromExtension (str ".bmp") >>= fun wr =>
          pure ((applyQuality (str ".bmp") wr 95).writeCall (str "out.bmp") color ⟨2, 1⟩).data)
        = .ok [0, 0, 255, 64, 0, 0, 255, 64] :=
  ⟨by decide, by decide, by decide, by decide,
    (end_to_end_buffer (str "#0000FF40") (str ".bmp") (str "out.bmp") ⟨0, 0, 255, 64⟩ .BMP
      ⟨2, 1⟩ 95 (by decide) (by decide) (by decide)).1⟩

/-! ## Theorems: canonical extensions and round trips -/

/-- C24: for each format `f`, the canonical extension reported by
`createWriter(f)->getExtension()` (`".png"`, `".jpg"`, `".bmp"`) is a member
of `getSupportedExtensions()`, which is exactly `[".png", ".jpg", ".jpeg",
".bmp"]`; every member of that list is accepted by `getFormatFromExtension`;
`getFormatFromExtension` on the canonical extension of `f` returns `f`; and
`ImageWriter::getFormatName(f)` equals the writer's own `getFormatName()`. -/
theorem canonical_extensions (f : FormatType) :
    ImageWriter.getSupportedExtensions = [str ".png", str ".jpg", str ".jpeg", str ".bmp"]
    ∧ (ImageWriter.createWriter .PNG).getExtension = str ".png"
    ∧ (ImageWriter.createWriter .JPEG).getExtension = str ".jpg"
    ∧ (ImageWriter.createWriter .BMP).getExtension = str ".bmp"
    ∧ (ImageWriter.createWriter f).getExtension ∈ ImageWriter.getSupportedExtensions
    ∧ (∀ e ∈ ImageWriter.getSupportedExtensions,
        ∃ g, ImageWriter.getFormatFromExtension e = .ok g)
    ∧ ImageWriter.getFormatFromExtension (ImageWriter.createWriter f).getExtension = .ok f
    ∧ ImageWriter.getFormatName f = (ImageWriter.createWriter f).getFormatName
    ∧ ImageWriter.isFormatSupported f = true := by
  refine ⟨rfl, rfl, rfl, rfl, ?_, ?_, ?_, ?_, ?_⟩
  · cases f <;> decide
  · intro e he
    simp only [ImageWriter.getSupportedExtensions, List.mem_cons, List.mem_singleton,
      List.not_mem_nil, or_false] at he
    rcases he with rfl | rfl | rfl | rfl
    · exact ⟨.PNG, by decide⟩
    · exact ⟨.JPEG, by decide⟩
    · exact ⟨.JPEG, by decide⟩
    · exact ⟨.BMP, by decide⟩
  · cases f <;> decide
  · cases f <;> rfl
  · cases f <;> rfl

/-- C25: for every valid `Resolution` `r`, `parseResolution(r.toString())`
succeeds and returns a `Resolution` with the same width and height as `r`. -/
theorem parseResolution_toString (r : Resolution) (hr : r.WF) :
    parseResolution r.toString = .ok r
    ∧ ∀ p, parseResolution r.toString = .ok p →
        p.getWidth = r.getWidth ∧ p.getHeight = r.getHeight := by
  obtain ⟨w, h⟩ := r
  have hv := (isValid_iff w h).mp hr
  obtain ⟨hwne, hwd, hwv, _⟩ := isDecimalRepr_formatDec w
  obtain ⟨hhne, hhd, hhv, _⟩ := isDecimalRepr_formatDec h
  have hp : parseResolution (Resolution.toString ⟨w, h⟩) = .ok ⟨w, h⟩ := by
    have e : Resolution.toString ⟨w, h⟩ = formatDec w ++ str "x" ++ formatDec h := rfl
    rw [e, parseResolution_decimal_small _ _ hwne hhne hwd hhd (by rw [hwv]; omega)
      (by rw [hhv]; omega), hwv, hhv]
    exact ofDimensions_of_valid w h hr
  refine ⟨hp, ?_⟩
  intro p hpp
  rw [hp] at hpp
  simp only [Except.ok.injEq] at hpp
  rw [← hpp]
  exact ⟨rfl, rfl⟩

/-- The resolution 1920x1080 prints as `1920x1080`, which parses back. -/
theorem parseResolution_toString_witness :
    (Resolution.mk 1920 1080).WF
    ∧ (Resolution.mk 1920 1080).toString = str "1920x1080"
    ∧ parseResolution (str "1920x1080") = .ok ⟨1920, 1080⟩ :=
  ⟨by decide, by decide, (parseResolution_toString ⟨1920, 1080⟩ (by decide)).1⟩

/-- C26: for every `Color` `c` with 8-bit channels, parsing the string `main`
prints for it, `Color(c.toHex(!c.isOpaque()))`, succeeds and equals `c` in all
four channels: the 6-digit form is printed exactly when alpha is 255, the
alpha the parser gives to 6 digits. -/
theorem ofHex_printedColor (c : Color) (h : c.WF) :
    Color.ofHex (printedColor c) = .ok c
    ∧ Color.ofHex (c.toHex (!c.isOpaque)) = .ok c
    ∧ ((printedColor c).length = 7 ↔ c.alpha = 255)
    ∧ ((printedColor c).length = 9 ↔ c.alpha ≠ 255) := by
  obtain ⟨r, g, b, a⟩ := c
  obtain ⟨hr, hg, hb, ha⟩ := h
  simp only at hr hg hb ha
  have hd : ∀ n : Nat, n < 256 → n / 16 < 16 := fun n hn => by omega
  have hm : ∀ n : Nat, n % 16 < 16 := fun n => by omega
  have hf : Color.toHex ⟨r, g, b, a⟩ false
      = 35 :: [hexDigitChar (r / 16), hexDigitChar (r % 16), hexDigitChar (g / 16),
          hexDigitChar (g % 16), hexDigitChar (b / 16), hexDigitChar (b % 16)] := by
    simp only [Color.toHex, Bool.false_eq_true, if_false, setw_formatHex r hr,
      setw_formatHex g hg, setw_formatHex b hb]
    rfl
  have ht : Color.toHex ⟨r, g, b, a⟩ true
      = 35 :: [hexDigitChar (r / 16), hexDigitChar (r % 16), hexDigitChar (g / 16),
          hexDigitChar (g % 16), hexDigitChar (b / 16), hexDigitChar (b % 16),
          hexDigitChar (a / 16), hexDigitChar (a % 16)] := by
    simp only [Color.toHex, if_true, setw_formatHex r hr, setw_formatHex g hg,
      setw_formatHex b hb, setw_formatHex a ha]
    rfl
  unfold printedColor
  by_cases hop : a = 255
  · have ho : Color.isOpaque ⟨r, g, b, a⟩ = true := by simp [Color.isOpaque, hop]
    have hparse : Color.ofHex (Color.toHex ⟨r, g, b, a⟩ false) = .ok ⟨r, g, b, a⟩ := by
      unfold Color.ofHex
      rw [hf, parseHex_six _ _ _ _ _ _ _ (stripHash_hash _)
        (isxdigit_hexDigitChar _ (hd r hr)) (isxdigit_hexDigitChar _ (hm r))
        (isxdigit_hexDigitChar _ (hd g hg)) (isxdigit_hexDigitChar _ (hm g))
        (isxdigit_hexDigitChar _ (hd b hb)) (isxdigit_hexDigitChar _ (hm b))]
      simp only [hexValue_hexDigitChar _ (hd r hr), hexValue_hexDigitChar _ (hm r),
        hexValue_hexDigitChar _ (hd g hg), hexValue_hexDigitChar _ (hm g),
        hexValue_hexDigitChar _ (hd b hb), hexValue_hexDigitChar _ (hm b), Nat.div_add_mod,
        hop]
    simp only [ho, Bool.not_true]
    refine ⟨hparse, hparse, ?_, ?_⟩
    · rw [hf]
      simp [hop]
    · rw [hf]
      simp [hop]
  · have ho : Color.isOpaque ⟨r, g, b, a⟩ = false := by simp [Color.isOpaque, hop]
    have hparse : Color.ofHex (Color.toHex ⟨r, g, b, a⟩ true) = .ok ⟨r, g, b, a⟩ := by
      unfold Color.ofHex
      rw [ht, parseHex_eight _ _ _ _ _ _ _ _ _ (stripHash_hash _)
        (isxdigit_hexDigitChar _ (hd r hr)) (isxdigit_hexDigitChar _ (hm r))
        (isxdigit_hexDigitChar _ (hd g hg)) (isxdigit_hexDigitChar _ (hm g))
        (isxdigit_hexDigitChar _ (hd b hb)) (isxdigit_hexDigitChar _ (hm b))
        (isxdigit_hexDigitChar _ (hd a ha)) (isxdigit_hexDigitChar _ (hm a))]
      simp only [hexValue_hexDigitChar _ (hd r hr), hexValue_hexDigitChar _ (hm r),
        hexValue_hexDigitChar _ (hd g hg), hexValue_hexDigitChar _ (hm g),
        hexValue_hexDigitChar _ (hd b hb), hexValue_hexDigitChar _ (hm b),
        hexValue_hexDigitChar _ (hd a ha), hexValue_hexDigitChar _ (hm a), Nat.div_add_mod]
    simp only [ho, Bool.not_false]
    refine ⟨hparse, hparse, ?_, ?_⟩
    · rw [ht]
      simp [hop]
    · rw [ht]
      simp [hop]

/-- The opaque colour (255, 87, 51, 255) prints as `#FF5733` and the colour
(0, 0, 255, 64) as `#0000FF40`; both parse back. -/
theorem ofHex_printedColor_witness :
    (Color.mk 255 87 51 255).WF
    ∧ printedColor ⟨255, 87, 51, 255⟩ = str "#FF5733"
    ∧ Color.ofHex (printedColor ⟨255, 87, 51, 255⟩) = .ok ⟨255, 87, 51, 255⟩
    ∧ printedColor ⟨0, 0, 255, 64⟩ = str "#0000FF40"
    ∧ Color.ofHex (str "#0000FF40") = .ok ⟨0, 0, 255, 64⟩ :=
  ⟨by decide, by decide, (ofHex_printedColor ⟨255, 87, 51, 255⟩ (by decide)).1, by decide,
    by decide⟩

/-! ## Lemmas: the stores of the fill loop -/

/-- The loop body is the list of its stores, applied in order. -/
theorem fillPixel_eq_writes (r g b a : Nat) (channels : Int) (buffer : List Nat) (i : Nat) :
    STBImageWriter.fillPixel r g b a channels buffer i
      = (STBImageWriter.pixelWrites r g b a channels i).foldl
          (fun buf w => buf.set w.1 w.2) buffer := by
  unfold STBImageWriter.fillPixel STBImageWriter.pixelWrites
  by_cases h4 : channels = 4
  · simp only [h4, if_true]
    rfl
  · simp only [h4, if_false]
    rfl

theorem foldl_flatten_map (f : Nat → List (Nat × Nat)) (l : List Nat) (buffer : List Nat) :
    ((l.map f).flatten).foldl (fun buf w => buf.set w.1 w.2) buffer
      = l.foldl (fun buf i => (f i).foldl (fun buf w => buf.set w.1 w.2) buf) buffer := by
  induction l generalizing buffer with
  | nil => rfl
  | cons x t ih =>
    rw [List.map_cons, List.flatten_cons, List.foldl_append, ih, List.foldl_cons]

/-- The fill is the list of its stores, applied in order to the resized
buffer. -/
theorem fillPixelBuffer_eq_writes (buffer : List Nat) (c : Color) (res : Resolution)
    (channels : Int) :
    STBImageWriter.fillPixelBuffer buffer c res channels
      = (STBImageWriter.fillWrites c res channels).foldl (fun buf w => buf.set w.1 w.2)
          (STBImageWriter.resize buffer
            (wrapSizeT (wrapSizeT (res.getWidth * res.getHeight) * toSizeT channels))) := by
  have hbody : STBImageWriter.fillPixel c.red c.green c.blue c.alpha channels
      = fun buf i => (STBImageWriter.pixelWrites c.red c.green c.blue c.alpha channels i).foldl
          (fun buf w => buf.set w.1 w.2) buf := by
    funext buf i
    exact fillPixel_eq_writes _ _ _ _ _ _ _
  unfold STBImageWriter.fillPixelBuffer STBImageWriter.fillWrites
  rw [foldl_flatten_map]
  simp only [hbody]

theorem range_triples (n : Nat) :
    ((List.range n).map (fun i => [i * 3, i * 3 + 1, i * 3 + 2])).flatten
      = List.range (n * 3) := by
  induction n with
  | zero => rfl
  | succ n ih =>
    rw [List.range_succ, List.map_append, List.flatten_append, ih,
      show (n + 1) * 3 = n * 3 + 1 + 1 + 1 by ring, List.range_succ, List.range_succ,
      List.range_succ]
    simp

theorem range_quadruples (n : Nat) :
    ((List.range n).map (fun i => [i * 4, i * 4 + 1, i * 4 + 2, i * 4 + 3])).flatten
      = List.range (n * 4) := by
  induction n with
  | zero => rfl
  | succ n ih =>
    rw [List.range_succ, List.map_append, List.flatten_append, ih,
      show (n + 1) * 4 = n * 4 + 1 + 1 + 1 + 1 by ring, List.range_succ, List.range_succ,
      List.range_succ, List.range_succ]
    simp

/-- With 3 channels the loop stores to the indices `0, 1, 2, ...` up to the
buffer length, each once and in this order. -/
theorem fillWrites_indices_three (c : Color) (res : Resolution) (hres : res.WF) :
    (STBImageWriter.fillWrites c res 3).map Prod.fst
      = List.range (res.width * res.height * 3) := by
  have hN := pixelCount_le res hres
  unfold STBImageWriter.fillWrites Resolution.getWidth Resolution.getHeight
  rw [wrapSizeT_of_lt (res.width * res.height) (by omega), List.map_flatten, List.map_map,
    ← range_triples]
  congr 1
  apply List.map_congr_left
  intro i hi
  rw [List.mem_range] at hi
  simp only [Function.comp, STBImageWriter.pixelWrites, toSizeT_three,
    show ¬ ((3 : Int) = 4) by decide, if_false, List.append_nil, List.map_cons, List.map_nil]
  rw [wrapSizeT_of_lt (i * 3) (by omega), wrapSizeT_of_lt (i * 3 + 0) (by omega),
    wrapSizeT_of_lt (i * 3 + 1) (by omega), wrapSizeT_of_lt (i * 3 + 2) (by omega)]
  rfl

/-- With 4 channels the loop stores to the indices `0, 1, 2, ...` up to the
buffer length, each once and in this order. -/
theorem fillWrites_indices_four (c : Color) (res : Resolution) (hres : res.WF) :
    (STBImageWriter.fillWrites c res 4).map Prod.fst
      = List.range (res.width * res.height * 4) := by
  have hN := pixelCount_le res hres
  unfold STBImageWriter.fillWrites Resolution.getWidth Resolution.getHeight
  rw [wrapSizeT_of_lt (res.width * res.height) (by omega), List.map_flatten, List.map_map,
    ← range_quadruples]
  congr 1
  apply List.map_congr_left
  intro i hi
  rw [List.mem_range] at hi
  simp only [Function.comp, STBImageWriter.pixelWrites, toSizeT_four, if_true,
    List.cons_append, List.nil_append, List.map_cons, List.map_nil]
  rw [wrapSizeT_of_lt (i * 4) (by omega), wrapSizeT_of_lt (i * 4 + 0) (by omega),
    wrapSizeT_of_lt (i * 4 + 1) (by omega), wrapSizeT_of_lt (i * 4 + 2) (by omega),
    wrapSizeT_of_lt (i * 4 + 3) (by omega)]
  rfl

theorem toInt32_of_lt (n : Nat) (h : n < 2147483648) : toInt32 n = (n : Int) := by
  unfold toInt32
  rw [if_pos h]

/-- The stride `write` passes to the PNG encoder: `width * channels`, computed
in `uint32_t` and converted to `int`, with the channel count it chose. -/
theorem writeCall_png_stride (q : Int) (filename : CppString) (c : Color) (res : Resolution)
    (hres : res.WF) :
    ((STBImageWriter.mk .PNG q).writeCall filename c res).stride
      = some ((res.width * (if c.alpha = 255 then 3 else 4) : Nat) : Int) := by
  have hv := (isValid_iff _ _).mp hres
  have hne : ¬ (STBImageWriter.Format.PNG = STBImageWriter.Format.JPEG) := by decide
  by_cases ha : c.alpha = 255
  · have e : toUInt32 3 = 3 := by decide
    simp only [STBImageWriter.writeCall, StbCall.stride, Color.isOpaque, ha, beq_self_eq_true,
      if_true, hne, if_false, Resolution.getWidth, e, wrapUInt32]
    rw [Nat.mod_eq_of_lt (by omega), toInt32_of_lt _ (by omega)]
  · have e : toUInt32 4 = 4 := by decide
    simp only [STBImageWriter.writeCall, StbCall.stride, Color.isOpaque, ha, beq_iff_eq,
      hne, if_false, Resolution.getWidth, e, wrapUInt32]
    rw [Nat.mod_eq_of_lt (by omega), toInt32_of_lt _ (by omega)]

/-! ## Theorems: bounds of the fill loop and the PNG stride -/

/-- C27: for every valid resolution and channels `k` in `{3,4}`, every index
the fill loop stores to is below the buffer length `w*h*k` set by `resize`,
the stores go to the indices `0 .. w*h*k - 1` once each, so every byte of
the buffer is written exactly once, and the row stride `width*k` that `write`
passes to the PNG encoder does not wrap in 32-bit unsigned arithmetic, fits a
signed 32-bit `int`, and satisfies `stride*height == buffer length`. -/
theorem fill_in_bounds_and_stride (buffer : List Nat) (q : Int) (filename : CppString)
    (c : Color) (res : Resolution) (hres : res.WF) :
    ((STBImageWriter.resize buffer
        (wrapSizeT (wrapSizeT (res.getWidth * res.getHeight) * toSizeT 3))).length
      = res.width * res.height * 3
      ∧ (∀ p ∈ STBImageWriter.fillWrites c res 3, p.1 < res.width * res.height * 3)
      ∧ (STBImageWriter.fillWrites c res 3).map Prod.fst
          = List.range (res.width * res.height * 3)
      ∧ (∀ n, n < res.width * res.height * 3 →
          ((STBImageWriter.fillWrites c res 3).map Prod.fst).count n = 1)
      ∧ STBImageWriter.fillPixelBuffer buffer c res 3
          = (STBImageWriter.fillWrites c res 3).foldl (fun buf w => buf.set w.1 w.2)
              (STBImageWriter.resize buffer
                (wrapSizeT (wrapSizeT (res.getWidth * res.getHeight) * toSizeT 3))))
    ∧ ((STBImageWriter.resize buffer
        (wrapSizeT (wrapSizeT (res.getWidth * res.getHeight) * toSizeT 4))).length
      = res.width * res.height * 4
      ∧ (∀ p ∈ STBImageWriter.fillWrites c res 4, p.1 < res.width * res.height * 4)
      ∧ (STBImageWriter.fillWrites c res 4).map Prod.fst
          = List.range (res.width * res.height * 4)
      ∧ (∀ n, n < res.width * res.height * 4 →
          ((STBImageWriter.fillWrites c res 4).map Prod.fst).count n = 1)
      ∧ STBImageWriter.fillPixelBuffer buffer c res 4
          = (STBImageWriter.fillWrites c res 4).foldl (fun buf w => buf.set w.1 w.2)
              (STBImageWriter.resize buffer
                (wrapSizeT (wrapSizeT (res.getWidth * res.getHeight) * toSizeT 4))))
    ∧ (wrapUInt32 (res.getWidth * toUInt32 3) = res.width * 3
      ∧ res.width * 3 < 2147483648
      ∧ res.width * 3 * res.height = res.width * res.height * 3)
    ∧ (wrapUInt32 (res.getWidth * toUInt32 4) = res.width * 4
      ∧ res.width * 4 < 2147483648
      ∧ res.width * 4 * res.height = res.width * res.height * 4)
    ∧ ∃ k : Nat, (k = 3 ∨ k = 4)
      ∧ ((STBImageWriter.mk .PNG q).writeCall filename c res).comp = (k : Int)
      ∧ ((STBImageWriter.mk .PNG q).writeCall filename c res).stride
          = some ((res.width * k : Nat) : Int)
      ∧ res.width * k * res.height
          = ((STBImageWriter.mk .PNG q).writeCall filename c res).data.length := by
  have hv := (isValid_iff _ _).mp hres
  have hN := pixelCount_le res hres
  have h3 := fillWrites_indices_three c res hres
  have h4 := fillWrites_indices_four c res hres
  have e3 : toUInt32 3 = 3 := by decide
  have e4 : toUInt32 4 = 4 := by decide
  refine ⟨⟨?_, ?_, h3, ?_, fillPixelBuffer_eq_writes buffer c res 3⟩,
    ⟨?_, ?_, h4, ?_, fillPixelBuffer_eq_writes buffer c res 4⟩, ⟨?_, by omega, by ring⟩,
    ⟨?_, by omega, by ring⟩, ?_⟩
  · rw [length_resize]
    unfold Resolution.getWidth Resolution.getHeight
    rw [toSizeT_three, wrapSizeT_of_lt (res.width * res.height) (by omega),
      wrapSizeT_of_lt _ (by omega)]
  · intro p hp
    have hm : p.1 ∈ (STBImageWriter.fillWrites c res 3).map Prod.fst :=
      List.mem_map_of_mem Prod.fst hp
    rw [h3, List.mem_range] at hm
    exact hm
  · intro n hn
    rw [h3]
    exact List.count_eq_one_of_mem (List.nodup_range _) (List.mem_range.mpr hn)
  · rw [length_resize]
    unfold Resolution.getWidth Resolution.getHeight
    rw [toSizeT_four, wrapSizeT_of_lt (res.width * res.height) (by omega),
      wrapSizeT_of_lt _ (by omega)]
  · intro p hp
    have hm : p.1 ∈ (STBImageWriter.fillWrites c res 4).map Prod.fst :=
      List.mem_map_of_mem Prod.fst hp
    rw [h4, List.mem_range] at hm
    exact hm
  · intro n hn
    rw [h4]
    exact List.count_eq_one_of_mem (List.nodup_range _) (List.mem_range.mpr hn)
  · unfold wrapUInt32 Resolution.getWidth
    rw [e3]
    exact Nat.mod_eq_of_lt (by omega)
  · unfold wrapUInt32 Resolution.getWidth
    rw [e4]
    exact Nat.mod_eq_of_lt (by omega)
  · have hs := writeCall_png_stride q filename c res hres
    have hd := writeCall_data ⟨.PNG, q⟩ filename c res hres
    by_cases ha : c.alpha = 255
    · refine ⟨3, Or.inl rfl, ?_, ?_, ?_⟩
      · simp [STBImageWriter.writeCall, StbCall.comp, Color.isOpaque, ha]
      · rw [hs]
        simp [ha]
      · rw [hd]
        simp only [ha, ne_eq, not_true_eq_false, and_false, if_false,
          length_flatten_replicate, List.length_cons, List.length_nil]
        ring
    · refine ⟨4, Or.inr rfl, ?_, ?_, ?_⟩
      · simp [STBImageWriter.writeCall, StbCall.comp, Color.isOpaque, ha]
      · rw [hs]
        simp [ha]
      · rw [hd]
        simp only [ha, ne_eq, not_false_eq_true, and_true, true_or, if_true,
          length_flatten_replicate, List.length_cons, List.length_nil]
        ring

/-- A 2x3 fill: the stores go to the indices 0..17 (3 channels) and 0..23
(4 channels), and the PNG stride for a translucent colour is 8. -/
theorem fill_in_bounds_and_stride_witness :
    (Resolution.mk 2 3).WF
    ∧ (STBImageWriter.fillWrites ⟨1, 2, 3, 4⟩ ⟨2, 3⟩ 3).map Prod.fst = List.range 18
    ∧ (STBImageWriter.fillWrites ⟨1, 2, 3, 4⟩ ⟨2, 3⟩ 4).map Prod.fst = List.range 24
    ∧ ((STBImageWriter.mk .PNG 95).writeCall (str "a.png") ⟨1, 2, 3, 4⟩ ⟨2, 3⟩).stride = some 8
    ∧ (((STBImageWriter.mk .PNG 95).writeCall (str "a.png") ⟨1, 2, 3, 4⟩ ⟨2, 3⟩).data).length
        = 24 :=
  ⟨by decide,
    (fill_in_bounds_and_stride [] 95 (str "a.png") ⟨1, 2, 3, 4⟩ ⟨2, 3⟩ (by decide)).1.2.2.1,
    (fill_in_bounds_and_stride [] 95 (str "a.png") ⟨1, 2, 3, 4⟩ ⟨2, 3⟩ (by decide)).2.1.2.2.1,
    by decide, by decide⟩

end ColorGenerator
